import Mathlib

/-!
# Smart pointers: shared / weak / unique ownership

A shallow embedding of `weak/sw_fwd.h`, `shared/shared.h`,
`shared-from-this/weak.h`, `unique/unique.h`, `intrusive/intrusive.h` and
`compressed_pair.h`.

* Addresses are natural numbers, `0` is `nullptr`.
* The heap of control blocks is a map from addresses to blocks; a freed or
  never allocated address maps to `none`, and touching it is undefined
  behaviour (`Outcome.ub`).
* The two `int` counters of a control block are integers; signed overflow
  (more than `2^31 - 1` handles on one block) is outside the model.
* Pointee destructors are instrumented: every run of a destructor bumps
  `dtorCalls` of the pointee. The user-written destructor body is empty; a
  pointee with the self-observation capability destroys its `weak_this_`
  member afterwards, as C++ does for members and bases.
* A pointee destructor can delete a control block, whose destructor can
  destroy a pointee in turn; `deleteCtrlFuel` bounds this nesting and reports
  `Outcome.fuel` when the bound is hit. Every result stated below is an
  `Outcome.ok` or an `Outcome.badWeakPtr`, so the bound was not hit there.
* Handles are values; an operation returns the handle(s) after the call. The
  test `this != &other` of the assignment operators is the flag `same`.
* Deleter calls of `UniquePtr` are appended to a log, each with the address
  passed and with what `Get()` of the calling pointer returns during the call.
-/

namespace SmartPtrs

/-- Addresses of pointees and of control blocks; `0` is `nullptr`. -/
abbrev Addr := Nat

/-- The two subclasses of `ControlBlock`: `ControlBlockPointer<T>` owns a
separately allocated pointee, `ControlBlockObject<T>` houses it inline. -/
inductive Flavor where
  | pointer
  | object
  deriving DecidableEq, Repr

/-- A `ControlBlock` with the fields of its subclass. `esft` is the compile-time
test `std::is_convertible_v<T*, EnableSharedFromThisBase*>` of the block's `T`.
`obj_` is the owned address (`ControlBlockPointer`) or the address of the inline
buffer (`ControlBlockObject`). -/
structure ControlBlock where
  shared_counter_ : Int
  weak_counter_ : Int
  flavor : Flavor
  esft : Bool
  obj_ : Addr
  deriving DecidableEq, Repr

/-- The fields of `WeakPtr<T>`. -/
structure WeakPtr where
  ptr_ : Addr
  ctrl_ : Addr
  deriving DecidableEq, Repr

/-- The fields of `SharedPtr<T>`. -/
structure SharedPtr where
  ptr_ : Addr
  ctrl_ : Addr
  deriving DecidableEq, Repr

/-- What the model records about the object at an address: the payload it was
built with, how many times its destructor has run, and the `weak_this_` member of
its `EnableSharedFromThis<T>` base (empty for a type without the capability). -/
structure Pointee where
  value : Int
  dtorCalls : Nat
  weak_this_ : WeakPtr
  deriving DecidableEq, Repr

/-- The memory the pointers work on. `next` counts the control blocks allocated so
far; the next `new` returns address `next + 1`. -/
structure Heap where
  ctrl : Addr → Option ControlBlock
  next : Nat
  objs : Addr → Pointee

/-- The heap before anything was allocated. -/
def Heap.empty : Heap :=
  ⟨fun _ => none, 0, fun _ => ⟨0, 0, ⟨0, 0⟩⟩⟩

/-- The block a control-block pointer refers to; `none` for `nullptr` and for a
freed block. -/
def Heap.block (h : Heap) (c : Addr) : Option ControlBlock :=
  if c = 0 then none else h.ctrl c

/-- Overwrite (or free, with `none`) the block at `c`. -/
def Heap.setCtrl (h : Heap) (c : Addr) (b : Option ControlBlock) : Heap :=
  ⟨fun x => if x = c then b else h.ctrl x, h.next, h.objs⟩

/-- Overwrite the pointee record at `a`. -/
def Heap.setObj (h : Heap) (a : Addr) (o : Pointee) : Heap :=
  ⟨h.ctrl, h.next, fun x => if x = a then o else h.objs x⟩

/-- The effect of `new ControlBlock...`: the fresh address and the heap holding `b`
there. -/
def Heap.alloc (h : Heap) (b : ControlBlock) : Addr × Heap :=
  (h.next + 1, ⟨fun x => if x = h.next + 1 then some b else h.ctrl x, h.next + 1, h.objs⟩)

/-- Result of running a piece of the library on a heap. -/
inductive Outcome (α : Type) where
  -- normal return with the new heap
  | ok : α → Heap → Outcome α
  -- BadWeakPtr was thrown; the heap is the one at the throw
  | badWeakPtr : Heap → Outcome α
  -- undefined behaviour: null dereference or use of a freed control block
  | ub : Outcome α
  -- the bound on nested control-block deletions was exhausted
  | fuel : Outcome α

/-- Sequencing: run `f` on the value and heap of a normal return. -/
def Outcome.bind {α β : Type} (x : Outcome α) (f : α → Heap → Outcome β) : Outcome β :=
  match x with
  | .ok a h => f a h
  | .badWeakPtr h => .badWeakPtr h
  | .ub => .ub
  | .fuel => .fuel

/-- The heap of a normal return. -/
def Outcome.heap? {α : Type} (x : Outcome α) : Option Heap :=
  match x with
  | .ok _ h => some h
  | _ => none

/-- The value of a normal return. -/
def Outcome.val? {α : Type} (x : Outcome α) : Option α :=
  match x with
  | .ok a _ => some a
  | _ => none

/-- Conversion `int → size_t` (64 bit) done by `UseCount`. -/
def toSizeT (x : Int) : Nat :=
  if 0 ≤ x then x.toNat else (x + 2 ^ 64).toNat

/-! ## `ControlBlock` (sw_fwd.h) -/

/-- Models `ControlBlock::IncreaseSharedCounter`. -/
def IncreaseSharedCounter (c : Addr) (h : Heap) : Outcome Unit :=
  match h.block c with
  | none => .ub
  | some b => .ok () (h.setCtrl c (some { b with shared_counter_ := b.shared_counter_ + 1 }))

/-- Models `ControlBlock::IncreaseWeakCounter(counter)`. -/
def IncreaseWeakCounter (c : Addr) (counter : Int) (h : Heap) : Outcome Unit :=
  match h.block c with
  | none => .ub
  | some b => .ok () (h.setCtrl c (some { b with weak_counter_ := b.weak_counter_ + counter }))

/-- Models `ControlBlock::DecreaseWeakCounter`. -/
def DecreaseWeakCounter (c : Addr) (h : Heap) : Outcome Unit :=
  match h.block c with
  | none => .ub
  | some b => .ok () (h.setCtrl c (some { b with weak_counter_ := b.weak_counter_ - 1 }))

/-- Models `ControlBlock::GetSharedCounter`; `none` is a read through a null or dangling
pointer. -/
def GetSharedCounter (c : Addr) (h : Heap) : Option Int :=
  (h.block c).map (fun b => b.shared_counter_)

/-- Models `ControlBlock::GetWeakCounter`. -/
def GetWeakCounter (c : Addr) (h : Heap) : Option Int :=
  (h.block c).map (fun b => b.weak_counter_)

/-- Models `~WeakPtr`, with the `delete ctrl_` it may run passed in as `del`. -/
def WeakPtr.dtorWith (del : Addr → Heap → Outcome Unit) (w : WeakPtr) (h : Heap) :
    Outcome Unit :=
  if w.ctrl_ ≠ 0 then
    (DecreaseWeakCounter w.ctrl_ h).bind fun _ h1 =>
      match GetSharedCounter w.ctrl_ h1, GetWeakCounter w.ctrl_ h1 with
      | some s, some k => if s = 0 ∧ k = 0 then del w.ctrl_ h1 else .ok () h1
      | _, _ => .ub
  else .ok () h

/-- The destructor of the pointee at `a`, statically of a type whose
self-observation test is `esft`: the run is counted, then the `weak_this_` member
is destroyed when the type has one. -/
def destroyPointeeWith (del : Addr → Heap → Outcome Unit) (esft : Bool) (a : Addr)
    (h : Heap) : Outcome Unit :=
  let o := h.objs a
  let h1 := h.setObj a { o with dtorCalls := o.dtorCalls + 1, weak_this_ := ⟨0, 0⟩ }
  if esft then WeakPtr.dtorWith del o.weak_this_ h1 else .ok () h1

/-- The expression `delete obj_`: nothing for `nullptr`, else the pointee's destructor. -/
def deleteObjWith (del : Addr → Heap → Outcome Unit) (esft : Bool) (a : Addr)
    (h : Heap) : Outcome Unit :=
  if a = 0 then .ok () h else destroyPointeeWith del esft a h

/-- The expression `delete ctrl` on a control block: the destructor of its dynamic
type (`~ControlBlockPointer` or `~ControlBlockObject`), then the deallocation.
The first argument bounds the nesting of deletions started from pointee
destructors. -/
def deleteCtrlFuel : Nat → Addr → Heap → Outcome Unit
  | 0, _, _ => .fuel
  | n + 1, c, h =>
    match h.block c with
    | none => .ub
    | some b =>
      match b.flavor with
      | .object => .ok () (h.setCtrl c none)
      | .pointer =>
        if b.obj_ ≠ 0 then
          if b.esft then
            (deleteObjWith (deleteCtrlFuel n) true b.obj_
              (h.setCtrl c (some { b with shared_counter_ := b.shared_counter_ + 1 }))).bind
              fun _ h2 =>
                match h2.block c with
                | none => .ub
                | some b2 =>
                  .ok () ((h2.setCtrl c
                    (some { b2 with obj_ := 0, shared_counter_ := b2.shared_counter_ - 1 })).setCtrl
                    c none)
          else
            (deleteObjWith (deleteCtrlFuel n) false b.obj_ h).bind fun _ h2 =>
              match h2.block c with
              | none => .ub
              | some b2 => .ok () ((h2.setCtrl c (some { b2 with obj_ := 0 })).setCtrl c none)
        else .ok () (h.setCtrl c none)

/-- The expression `delete ctrl`; the nesting bound is the number of blocks ever
allocated, plus one. -/
def deleteCtrl (c : Addr) (h : Heap) : Outcome Unit :=
  deleteCtrlFuel (h.next + 1) c h

/-- The pointee destructor as run by the library. -/
def destroyPointee (esft : Bool) (a : Addr) (h : Heap) : Outcome Unit :=
  destroyPointeeWith deleteCtrl esft a h

/-- The expression `delete obj_` as run by the library. -/
def deleteObj (esft : Bool) (a : Addr) (h : Heap) : Outcome Unit :=
  deleteObjWith deleteCtrl esft a h

/-- The virtual `DecreaseSharedCounter(counter)`, dispatched on the block's
dynamic type: `ControlBlockPointer<T>::DecreaseSharedCounter` and
`ControlBlockObject<T>::DecreaseSharedCounter`. -/
def DecreaseSharedCounter (c : Addr) (counter : Int) (h : Heap) : Outcome Unit :=
  match h.block c with
  | none => .ub
  | some b =>
    let h1 := h.setCtrl c (some { b with shared_counter_ := b.shared_counter_ - counter })
    if b.shared_counter_ - counter = 0 then
      match b.flavor, b.esft with
      | .pointer, true =>
        ((IncreaseSharedCounter c h1).bind fun _ h2 => deleteObj true b.obj_ h2).bind
          fun _ h3 =>
            match h3.block c with
            | none => .ub
            | some b3 =>
              .ok () (h3.setCtrl c
                (some { b3 with shared_counter_ := b3.shared_counter_ - 1, obj_ := 0 }))
      | .pointer, false => .ok () h1
      | .object, true =>
        ((IncreaseSharedCounter c h1).bind fun _ h2 => destroyPointee true b.obj_ h2).bind
          fun _ h3 =>
            match h3.block c with
            | none => .ub
            | some b3 =>
              .ok () (h3.setCtrl c (some { b3 with shared_counter_ := b3.shared_counter_ - 1 }))
      | .object, false => destroyPointee false b.obj_ h1
    else .ok () h1

/-! ## `WeakPtr` (weak.h) -/

/-- Models `WeakPtr::WeakPtr()`. -/
def WeakPtr.ctorDefault : WeakPtr := ⟨0, 0⟩

/-- Models `WeakPtr::WeakPtr(const WeakPtr&)` and the converting `WeakPtr(const WeakPtr<Y>&)`. -/
def WeakPtr.ctorCopy (other : WeakPtr) (h : Heap) : Outcome WeakPtr :=
  if other.ctrl_ ≠ 0 then
    (IncreaseWeakCounter other.ctrl_ 1 h).bind fun _ h1 => .ok ⟨other.ptr_, other.ctrl_⟩ h1
  else .ok ⟨other.ptr_, other.ctrl_⟩ h

/-- Models `WeakPtr::WeakPtr(WeakPtr&&)`: the new pointer and the moved-from source. -/
def WeakPtr.ctorMove (other : WeakPtr) : WeakPtr × WeakPtr :=
  (⟨other.ptr_, other.ctrl_⟩, ⟨0, 0⟩)

/-- Models `WeakPtr::WeakPtr(const SharedPtr<T>&)`. -/
def WeakPtr.ctorShared (other : SharedPtr) (h : Heap) : Outcome WeakPtr :=
  if other.ctrl_ ≠ 0 then
    (IncreaseWeakCounter other.ctrl_ 1 h).bind fun _ h1 => .ok ⟨other.ptr_, other.ctrl_⟩ h1
  else .ok ⟨other.ptr_, other.ctrl_⟩ h

/-- Models `WeakPtr::operator=(const SharedPtr<T>&)`. -/
def WeakPtr.assignShared (this : WeakPtr) (other : SharedPtr) (h : Heap) : Outcome WeakPtr :=
  ((if other.ctrl_ ≠ 0 then IncreaseWeakCounter other.ctrl_ 1 h else .ok () h).bind
    fun _ h1 => if this.ctrl_ ≠ 0 then DecreaseWeakCounter this.ctrl_ h1 else .ok () h1).bind
    fun _ h2 => .ok ⟨other.ptr_, other.ctrl_⟩ h2

/-- Models `WeakPtr::operator=(const WeakPtr&)`; `same` is the test `this == &other`. -/
def WeakPtr.assignCopy (this other : WeakPtr) (same : Bool) (h : Heap) : Outcome WeakPtr :=
  if same then .ok this h
  else
    ((if other.ctrl_ ≠ 0 then IncreaseWeakCounter other.ctrl_ 1 h else .ok () h).bind
      fun _ h1 => if this.ctrl_ ≠ 0 then DecreaseWeakCounter this.ctrl_ h1 else .ok () h1).bind
      fun _ h2 => .ok ⟨other.ptr_, other.ctrl_⟩ h2

/-- Models `WeakPtr::operator=(const WeakPtr<Y>&)`; `cast` is the value of
`dynamic_cast<T*>(other.Get())`. -/
def WeakPtr.assignCross (this other : WeakPtr) (cast : Addr) (h : Heap) : Outcome WeakPtr :=
  ((if other.ctrl_ ≠ 0 then IncreaseWeakCounter other.ctrl_ 1 h else .ok () h).bind
    fun _ h1 => if this.ctrl_ ≠ 0 then DecreaseWeakCounter this.ctrl_ h1 else .ok () h1).bind
    fun _ h2 => .ok ⟨cast, other.ctrl_⟩ h2

/-- The test `old_ctrl != nullptr && old_ctrl->GetSharedCounter() == 0 &&
old_ctrl->GetWeakCounter() == 0` followed by `delete old_ctrl` when it holds. -/
def deleteIfUnused (old_ctrl : Addr) (h : Heap) : Outcome Unit :=
  if old_ctrl ≠ 0 then
    match GetSharedCounter old_ctrl h, GetWeakCounter old_ctrl h with
    | some s, some k => if s = 0 ∧ k = 0 then deleteCtrl old_ctrl h else .ok () h
    | _, _ => .ub
  else .ok () h

/-- Models `WeakPtr::operator=(WeakPtr&&)`: the assigned pointer and the source after the
call; `same` is the test `this == &other`. -/
def WeakPtr.assignMove (this other : WeakPtr) (same : Bool) (h : Heap) :
    Outcome (WeakPtr × WeakPtr) :=
  if same then .ok (this, other) h
  else
    ((if this.ctrl_ ≠ 0 then DecreaseWeakCounter this.ctrl_ h else .ok () h).bind
      fun _ h1 => deleteIfUnused this.ctrl_ h1).bind
      fun _ h2 => .ok (⟨other.ptr_, other.ctrl_⟩, ⟨0, 0⟩) h2

/-- Models `WeakPtr::~WeakPtr`. -/
def WeakPtr.dtor (w : WeakPtr) (h : Heap) : Outcome Unit :=
  WeakPtr.dtorWith deleteCtrl w h

/-- Models `WeakPtr::Reset`. -/
def WeakPtr.Reset (this : WeakPtr) (h : Heap) : Outcome WeakPtr :=
  (if this.ctrl_ ≠ 0 then
    (DecreaseWeakCounter this.ctrl_ h).bind fun _ h1 => deleteIfUnused this.ctrl_ h1
   else .ok () h).bind fun _ h2 => .ok ⟨0, 0⟩ h2

/-- Models `WeakPtr::Swap`. -/
def WeakPtr.Swap (this other : WeakPtr) : WeakPtr × WeakPtr :=
  (other, this)

/-- Models `WeakPtr::UseCount`; `none` is a read through a dangling control-block pointer. -/
def WeakPtr.UseCount (w : WeakPtr) (h : Heap) : Option Nat :=
  if w.ctrl_ ≠ 0 then (GetSharedCounter w.ctrl_ h).map toSizeT else some 0

/-- Models `WeakPtr::Expired`; `none` is a read through a dangling control-block pointer. -/
def WeakPtr.Expired (w : WeakPtr) (h : Heap) : Option Bool :=
  if w.ctrl_ = 0 then some true
  else (GetSharedCounter w.ctrl_ h).map (fun s => decide (s = 0))

/-- Models `WeakPtr::Get`. -/
def WeakPtr.Get (w : WeakPtr) : Addr := w.ptr_

/-- Models `WeakPtr::GetControl`. -/
def WeakPtr.GetControl (w : WeakPtr) : Addr := w.ctrl_

/-! ## `SharedPtr` (shared.h) -/

/-- Models `SharedPtr::SharedPtr()` and `SharedPtr(std::nullptr_t)`. -/
def SharedPtr.ctorDefault : SharedPtr := ⟨0, 0⟩

/-- Models `SharedPtr::Get`. -/
def SharedPtr.Get (p : SharedPtr) : Addr := p.ptr_

/-- Models `SharedPtr::GetControl`. -/
def SharedPtr.GetControl (p : SharedPtr) : Addr := p.ctrl_

/-- Models `SharedPtr::operator bool`. -/
def SharedPtr.toBool (p : SharedPtr) : Bool := decide (p.ptr_ ≠ 0)

/-- Models `SharedPtr::UseCount`; `none` is a read through a dangling control-block pointer. -/
def SharedPtr.UseCount (p : SharedPtr) (h : Heap) : Option Nat :=
  if p.ctrl_ ≠ 0 then (GetSharedCounter p.ctrl_ h).map toSizeT else some 0

/-- Models `SharedPtr::operator*` read as a value: `none` for a null address or an object
whose destructor has run. -/
def SharedPtr.deref (p : SharedPtr) (h : Heap) : Option Int :=
  if p.ptr_ = 0 ∨ (h.objs p.ptr_).dtorCalls ≠ 0 then none else some (h.objs p.ptr_).value

/-- The free `operator==` on two `SharedPtr`. -/
def SharedPtr.eq (left right : SharedPtr) : Bool := decide (left.ctrl_ = right.ctrl_)

/-- Models `EnableSharedFromThis::SetWeakThis` on the pointee at `a`: `weak_this_ = weak_this`. -/
def SetWeakThis (a : Addr) (weak_this : WeakPtr) (h : Heap) : Outcome Unit :=
  (WeakPtr.assignCopy (h.objs a).weak_this_ weak_this false h).bind fun w h1 =>
    .ok () (h1.setObj a { h1.objs a with weak_this_ := w })

/-- The statement `ptr_->SetWeakThis(WeakPtr<T>(*this))`: the temporary is built from
`this`, handed to the pointee, and destroyed at the end of the statement. -/
def installWeakThis (this : SharedPtr) (h : Heap) : Outcome Unit :=
  (WeakPtr.ctorShared this h).bind fun tmp h1 =>
    if this.ptr_ = 0 then .ub
    else (SetWeakThis this.ptr_ tmp h1).bind fun _ h2 => WeakPtr.dtor tmp h2

/-- Models `SharedPtr::DeleteControl`; returns `this` after the call. -/
def SharedPtr.DeleteControl (this : SharedPtr) (h : Heap) : Outcome SharedPtr :=
  if this.ctrl_ ≠ 0 then
    (DecreaseSharedCounter this.ctrl_ 1 h).bind fun _ h1 =>
      match GetSharedCounter this.ctrl_ h1, GetWeakCounter this.ctrl_ h1 with
      | some s, some k =>
        if s = 0 ∧ k = 0 then
          (deleteCtrl this.ctrl_ h1).bind fun _ h2 => .ok ⟨this.ptr_, 0⟩ h2
        else .ok this h1
      | _, _ => .ub
  else .ok this h

/-- Models `SharedPtr::Reset()`. -/
def SharedPtr.Reset (this : SharedPtr) (h : Heap) : Outcome SharedPtr :=
  (SharedPtr.DeleteControl this h).bind fun _ h1 => .ok ⟨0, 0⟩ h1

/-- Models `SharedPtr::~SharedPtr`. -/
def SharedPtr.dtor (this : SharedPtr) (h : Heap) : Outcome Unit :=
  (SharedPtr.Reset this h).bind fun _ h1 => .ok () h1

/-- Models `SharedPtr::Reset(T* ptr)`; `esft` is the self-observation test of `T`. -/
def SharedPtr.ResetPtr (esft : Bool) (this : SharedPtr) (ptr : Addr) (h : Heap) :
    Outcome SharedPtr :=
  (SharedPtr.DeleteControl this h).bind fun _ h1 =>
    .ok ⟨ptr, (h1.alloc ⟨1, 0, .pointer, esft, ptr⟩).1⟩ (h1.alloc ⟨1, 0, .pointer, esft, ptr⟩).2

/-- Models `SharedPtr::Swap`. -/
def SharedPtr.Swap (this other : SharedPtr) : SharedPtr × SharedPtr :=
  (other, this)

/-- Models `explicit SharedPtr::SharedPtr(T* ptr)`; `esft` is the self-observation test of `T`. -/
def SharedPtr.ctorRaw (esft : Bool) (ptr : Addr) (h : Heap) : Outcome SharedPtr :=
  if esft then
    (installWeakThis ⟨ptr, (h.alloc ⟨1, 0, .pointer, esft, ptr⟩).1⟩
      (h.alloc ⟨1, 0, .pointer, esft, ptr⟩).2).bind
      fun _ h1 => .ok ⟨ptr, (h.alloc ⟨1, 0, .pointer, esft, ptr⟩).1⟩ h1
  else .ok ⟨ptr, (h.alloc ⟨1, 0, .pointer, esft, ptr⟩).1⟩ (h.alloc ⟨1, 0, .pointer, esft, ptr⟩).2

/-- Models `SharedPtr::SharedPtr(const SharedPtr<T>& other)`. -/
def SharedPtr.ctorCopy (other : SharedPtr) (h : Heap) : Outcome SharedPtr :=
  if other.toBool then
    (IncreaseSharedCounter other.ctrl_ h).bind fun _ h1 => .ok ⟨other.ptr_, other.ctrl_⟩ h1
  else .ok ⟨other.ptr_, other.ctrl_⟩ h

/-- The converting `SharedPtr::SharedPtr(const SharedPtr<U>& other)`. -/
def SharedPtr.ctorCopyCross (other : SharedPtr) (h : Heap) : Outcome SharedPtr :=
  if other.GetControl ≠ 0 then
    (IncreaseSharedCounter other.GetControl h).bind fun _ h1 =>
      .ok ⟨other.Get, other.GetControl⟩ h1
  else .ok ⟨other.Get, other.GetControl⟩ h

/-- Models `SharedPtr::SharedPtr(SharedPtr&& other)` and the converting
`SharedPtr(SharedPtr<U>&& other)`: the new pointer and the source after the call. -/
def SharedPtr.ctorMove (other : SharedPtr) (h : Heap) : Outcome (SharedPtr × SharedPtr) :=
  ((if other.ctrl_ ≠ 0 then IncreaseSharedCounter other.ctrl_ h else .ok () h).bind
    fun _ h1 => SharedPtr.Reset other h1).bind
    fun o h2 => .ok (⟨other.ptr_, other.ctrl_⟩, o) h2

/-- The aliasing constructor `SharedPtr(const SharedPtr<Y>& other, T* ptr)`; `esft` is the
self-observation test of `T`. -/
def SharedPtr.ctorAlias (esft : Bool) (other : SharedPtr) (ptr : Addr) (h : Heap) :
    Outcome SharedPtr :=
  if other.GetControl ≠ 0 then
    ((if esft then installWeakThis ⟨ptr, other.GetControl⟩ h else .ok () h).bind
      fun _ h1 => IncreaseSharedCounter other.GetControl h1).bind
      fun _ h2 => .ok ⟨ptr, other.GetControl⟩ h2
  else .ok ⟨ptr, other.GetControl⟩ h

/-- Models `explicit SharedPtr::SharedPtr(const WeakPtr<T>& other)`: promotion. -/
def SharedPtr.ctorWeak (other : WeakPtr) (h : Heap) : Outcome SharedPtr :=
  match other.Expired h with
  | none => .ub
  | some false =>
    if other.ctrl_ ≠ 0 then
      (IncreaseSharedCounter other.ctrl_ h).bind fun _ h1 => .ok ⟨other.ptr_, other.ctrl_⟩ h1
    else .ok ⟨other.ptr_, other.ctrl_⟩ h
  | some true => .badWeakPtr h

/-- Models `SharedPtr::operator=(const SharedPtr& other)`; `same` is the test `this == &other`. -/
def SharedPtr.assignCopy (this other : SharedPtr) (same : Bool) (h : Heap) :
    Outcome SharedPtr :=
  if !same && other.toBool then
    (((if this.ctrl_ ≠ 0 then DecreaseSharedCounter this.ctrl_ 1 h else .ok () h).bind
      fun _ h1 => if other.ctrl_ ≠ 0 then IncreaseSharedCounter other.ctrl_ h1 else .ok () h1).bind
      fun _ h2 => deleteIfUnused this.ctrl_ h2).bind
      fun _ h3 => .ok ⟨other.ptr_, other.ctrl_⟩ h3
  else .ok this h

/-- Models `SharedPtr::operator=(SharedPtr&& other)`: the assigned pointer and the source after
the call; `same` is the test `this == &other`. -/
def SharedPtr.assignMove (this other : SharedPtr) (same : Bool) (h : Heap) :
    Outcome (SharedPtr × SharedPtr) :=
  if !same && other.toBool then
    ((if this.ctrl_ ≠ 0 then DecreaseSharedCounter this.ctrl_ 1 h else .ok () h).bind
      fun _ h1 => deleteIfUnused this.ctrl_ h1).bind
      fun _ h2 => .ok (⟨other.ptr_, other.ctrl_⟩, ⟨0, 0⟩) h2
  else .ok (this, other) h

/-- Address of the inline buffer `obj_` of the `ControlBlockObject` at `c`. -/
def inlineAddr (c : Addr) : Addr := 2 * c + 1

/-- Models `MakeShared<T>(args)`, through the private constructor `SharedPtr(bool, Args&&...)`:
one allocation, the object built in place with payload `v`. -/
def MakeShared (esft : Bool) (v : Int) (h : Heap) : Outcome SharedPtr :=
  if esft then
    (installWeakThis ⟨inlineAddr (h.next + 1), h.next + 1⟩
      ((h.alloc ⟨1, 0, .object, esft, inlineAddr (h.next + 1)⟩).2.setObj
        (inlineAddr (h.next + 1)) ⟨v, 0, ⟨0, 0⟩⟩)).bind
      fun _ h1 => .ok ⟨inlineAddr (h.next + 1), h.next + 1⟩ h1
  else
    .ok ⟨inlineAddr (h.next + 1), h.next + 1⟩
      ((h.alloc ⟨1, 0, .object, esft, inlineAddr (h.next + 1)⟩).2.setObj
        (inlineAddr (h.next + 1)) ⟨v, 0, ⟨0, 0⟩⟩)

/-- Models `WeakPtr::Lock`. -/
def WeakPtr.Lock (w : WeakPtr) (h : Heap) : Outcome SharedPtr :=
  match w.Expired h with
  | none => .ub
  | some true => .ok SharedPtr.ctorDefault h
  | some false => SharedPtr.ctorWeak w h

/-- Models `EnableSharedFromThis::SharedFromThis` called on the pointee at `a`. -/
def SharedFromThis (a : Addr) (h : Heap) : Outcome SharedPtr :=
  SharedPtr.ctorWeak (h.objs a).weak_this_ h

/-- Models `EnableSharedFromThis::WeakFromThis` called on the pointee at `a`. -/
def WeakFromThis (a : Addr) (h : Heap) : Outcome WeakPtr :=
  WeakPtr.ctorCopy (h.objs a).weak_this_ h

/-- The expression `new T(v)` evaluated by a caller who obtains address `a`. -/
def newObject (a : Addr) (v : Int) (h : Heap) : Heap :=
  h.setObj a ⟨v, 0, ⟨0, 0⟩⟩

/-! ## Programs over `SharedPtr` and `WeakPtr` objects

A machine state holds the heap and the pointer objects created so far; an object is
named by its position, and a destroyed object is `none`. -/

/-- Heap, `SharedPtr` objects, `WeakPtr` objects and the addresses of the pointees
built so far (their `weak_this_` members are `WeakPtr` objects too). -/
structure Machine where
  heap : Heap
  sps : List (Option SharedPtr)
  wps : List (Option WeakPtr)
  pointees : List Addr

/-- The state of a program that has not run yet. -/
def Machine.init : Machine := ⟨Heap.empty, [], [], []⟩

/-- The public operations, on objects named by position. -/
inductive Op where
  | newObject (a : Addr) (v : Int)
  | spDefault
  | spRaw (esft : Bool) (p : Addr)
  | makeShared (esft : Bool) (v : Int)
  | spCopy (i : Nat)
  | spCopyCross (i : Nat)
  | spMove (i : Nat)
  | spAlias (esft : Bool) (i : Nat) (p : Addr)
  | spPromote (j : Nat)
  | spAssignCopy (i k : Nat)
  | spAssignMove (i k : Nat)
  | spDtor (i : Nat)
  | spReset (i : Nat)
  | spResetPtr (esft : Bool) (i : Nat) (p : Addr)
  | spSwap (i k : Nat)
  | wpDefault
  | wpCopy (j : Nat)
  | wpMove (j : Nat)
  | wpFromShared (i : Nat)
  | wpAssignShared (j i : Nat)
  | wpAssignCopy (j k : Nat)
  | wpAssignCross (j k : Nat) (cast : Addr)
  | wpAssignMove (j k : Nat)
  | wpDtor (j : Nat)
  | wpReset (j : Nat)
  | wpSwap (j k : Nat)
  | wpLock (j : Nat)
  deriving DecidableEq, Repr

/-- The live `SharedPtr` object at position `i`. -/
def Machine.sp (m : Machine) (i : Nat) : Option SharedPtr := (m.sps.get? i).join

/-- The live `WeakPtr` object at position `j`. -/
def Machine.wp (m : Machine) (j : Nat) : Option WeakPtr := (m.wps.get? j).join

/-- Result of one operation: the next state; `none` when the operation names a dead
object or runs into undefined behaviour. A thrown `BadWeakPtr` is caught by the
caller: the object under construction does not come to life. -/
def Machine.finish {α : Type} (m : Machine) (r : Outcome α) (k : α → Heap → Machine) :
    Option Machine :=
  match r with
  | .ok a h => some (k a h)
  | .badWeakPtr h => some ⟨h, m.sps, m.wps, m.pointees⟩
  | .ub => none
  | .fuel => none

/-- One public operation. -/
def Machine.step (m : Machine) : Op → Option Machine
  | .newObject a v => some ⟨newObject a v m.heap, m.sps, m.wps, m.pointees ++ [a]⟩
  | .spDefault => some ⟨m.heap, m.sps ++ [some SharedPtr.ctorDefault], m.wps, m.pointees⟩
  | .spRaw e p =>
    m.finish (SharedPtr.ctorRaw e p m.heap) fun s h => ⟨h, m.sps ++ [some s], m.wps, m.pointees⟩
  | .makeShared e v =>
    m.finish (MakeShared e v m.heap) fun s h =>
      ⟨h, m.sps ++ [some s], m.wps, m.pointees ++ [s.ptr_]⟩
  | .spCopy i =>
    (m.sp i).bind fun o =>
      m.finish (SharedPtr.ctorCopy o m.heap) fun s h => ⟨h, m.sps ++ [some s], m.wps, m.pointees⟩
  | .spCopyCross i =>
    (m.sp i).bind fun o =>
      m.finish (SharedPtr.ctorCopyCross o m.heap) fun s h =>
        ⟨h, m.sps ++ [some s], m.wps, m.pointees⟩
  | .spMove i =>
    (m.sp i).bind fun o =>
      m.finish (SharedPtr.ctorMove o m.heap) fun r h =>
        ⟨h, (m.sps.set i (some r.2)) ++ [some r.1], m.wps, m.pointees⟩
  | .spAlias e i p =>
    (m.sp i).bind fun o =>
      m.finish (SharedPtr.ctorAlias e o p m.heap) fun s h =>
        ⟨h, m.sps ++ [some s], m.wps, m.pointees⟩
  | .spPromote j =>
    (m.wp j).bind fun w =>
      m.finish (SharedPtr.ctorWeak w m.heap) fun s h => ⟨h, m.sps ++ [some s], m.wps, m.pointees⟩
  | .spAssignCopy i k =>
    (m.sp i).bind fun t => (m.sp k).bind fun o =>
      m.finish (SharedPtr.assignCopy t o (decide (i = k)) m.heap) fun s h =>
        ⟨h, m.sps.set i (some s), m.wps, m.pointees⟩
  | .spAssignMove i k =>
    (m.sp i).bind fun t => (m.sp k).bind fun o =>
      m.finish (SharedPtr.assignMove t o (decide (i = k)) m.heap) fun r h =>
        ⟨h, (m.sps.set k (some r.2)).set i (some r.1), m.wps, m.pointees⟩
  | .spDtor i =>
    (m.sp i).bind fun t =>
      m.finish (SharedPtr.dtor t m.heap) fun _ h => ⟨h, m.sps.set i none, m.wps, m.pointees⟩
  | .spReset i =>
    (m.sp i).bind fun t =>
      m.finish (SharedPtr.Reset t m.heap) fun s h => ⟨h, m.sps.set i (some s), m.wps, m.pointees⟩
  | .spResetPtr e i p =>
    (m.sp i).bind fun t =>
      m.finish (SharedPtr.ResetPtr e t p m.heap) fun s h =>
        ⟨h, m.sps.set i (some s), m.wps, m.pointees⟩
  | .spSwap i k =>
    (m.sp i).bind fun t => (m.sp k).bind fun o =>
      some ⟨m.heap, (m.sps.set i (some (SharedPtr.Swap t o).1)).set k (some (SharedPtr.Swap t o).2),
        m.wps, m.pointees⟩
  | .wpDefault => some ⟨m.heap, m.sps, m.wps ++ [some WeakPtr.ctorDefault], m.pointees⟩
  | .wpCopy j =>
    (m.wp j).bind fun o =>
      m.finish (WeakPtr.ctorCopy o m.heap) fun w h => ⟨h, m.sps, m.wps ++ [some w], m.pointees⟩
  | .wpMove j =>
    (m.wp j).bind fun o =>
      some ⟨m.heap, m.sps, (m.wps.set j (some (WeakPtr.ctorMove o).2)) ++ [some (WeakPtr.ctorMove o).1],
        m.pointees⟩
  | .wpFromShared i =>
    (m.sp i).bind fun o =>
      m.finish (WeakPtr.ctorShared o m.heap) fun w h => ⟨h, m.sps, m.wps ++ [some w], m.pointees⟩
  | .wpAssignShared j i =>
    (m.wp j).bind fun t => (m.sp i).bind fun o =>
      m.finish (WeakPtr.assignShared t o m.heap) fun w h =>
        ⟨h, m.sps, m.wps.set j (some w), m.pointees⟩
  | .wpAssignCopy j k =>
    (m.wp j).bind fun t => (m.wp k).bind fun o =>
      m.finish (WeakPtr.assignCopy t o (decide (j = k)) m.heap) fun w h =>
        ⟨h, m.sps, m.wps.set j (some w), m.pointees⟩
  | .wpAssignCross j k cast =>
    (m.wp j).bind fun t => (m.wp k).bind fun o =>
      m.finish (WeakPtr.assignCross t o cast m.heap) fun w h =>
        ⟨h, m.sps, m.wps.set j (some w), m.pointees⟩
  | .wpAssignMove j k =>
    (m.wp j).bind fun t => (m.wp k).bind fun o =>
      m.finish (WeakPtr.assignMove t o (decide (j = k)) m.heap) fun r h =>
        ⟨h, m.sps, (m.wps.set k (some r.2)).set j (some r.1), m.pointees⟩
  | .wpDtor j =>
    (m.wp j).bind fun t =>
      m.finish (WeakPtr.dtor t m.heap) fun _ h => ⟨h, m.sps, m.wps.set j none, m.pointees⟩
  | .wpReset j =>
    (m.wp j).bind fun t =>
      m.finish (WeakPtr.Reset t m.heap) fun w h => ⟨h, m.sps, m.wps.set j (some w), m.pointees⟩
  | .wpSwap j k =>
    (m.wp j).bind fun t => (m.wp k).bind fun o =>
      some ⟨m.heap, m.sps, (m.wps.set j (some (WeakPtr.Swap t o).1)).set k (some (WeakPtr.Swap t o).2),
        m.pointees⟩
  | .wpLock j =>
    (m.wp j).bind fun w =>
      m.finish (WeakPtr.Lock w m.heap) fun s h => ⟨h, m.sps ++ [some s], m.wps, m.pointees⟩

/-- Run a program, one operation after the other. -/
def Machine.run (m : Machine) : List Op → Option Machine
  | [] => some m
  | op :: rest => (m.step op).bind fun m1 => m1.run rest

/-- A state is reachable when some program leads to it from the initial state. -/
def Machine.Reachable (m : Machine) : Prop :=
  ∃ prog : List Op, Machine.init.run prog = some m

/-- Number of live `SharedPtr` objects whose control block is `c`. -/
def Machine.liveShared (m : Machine) (c : Addr) : Nat :=
  (m.sps.filter fun o => o.any fun s => decide (s.ctrl_ = c)).length

/-- Number of live `WeakPtr` objects whose control block is `c`: the program's own and
the `weak_this_` members of the pointees. -/
def Machine.liveWeak (m : Machine) (c : Addr) : Nat :=
  (m.wps.filter fun o => o.any fun w => decide (w.ctrl_ = c)).length +
    (m.pointees.filter fun a => decide ((m.heap.objs a).weak_this_.ctrl_ = c)).length

/-- The counting invariant at block `c`: both counters equal the number of live
pointer objects of their kind on `c`. -/
def Machine.CountsAgree (m : Machine) (c : Addr) : Prop :=
  ∀ b, m.heap.block c = some b →
    b.shared_counter_ = (m.liveShared c : Int) ∧ b.weak_counter_ = (m.liveWeak c : Int)

/-! ## `UniquePtr` (unique.h) -/

/-- The primary `CompressedPair<F, S>` template: both elements stored. -/
structure CompressedPair (F S : Type) where
  first_ : F
  second_ : S
  deriving DecidableEq, Repr

/-- Models `CompressedPair::GetFirst` of the primary template, const and non-const. -/
def CompressedPair.GetFirst {F S : Type} (p : CompressedPair F S) : F := p.first_

/-- Models `CompressedPair::GetSecond` of the primary template, const and non-const. -/
def CompressedPair.GetSecond {F S : Type} (p : CompressedPair F S) : S := p.second_

/-- A deleter object: the default `Slug`, or an object of another deleter type with
its state. -/
inductive Deleter where
  | slug
  | custom (state : Nat)
  deriving DecidableEq, Repr

/-- One call of a deleter: the deleter object called, whether the two-argument
array form `operator()(ptr, int)` of `Slug` was used, the address passed, and what
`Get()` of the calling `UniquePtr` returns while the call runs. -/
structure Invocation where
  deleter : Deleter
  arrayForm : Bool
  addr : Addr
  seen : Addr
  deriving DecidableEq, Repr

/-- The fields of `UniquePtr<T, Deleter>`; `array` tells the specialization
`UniquePtr<T[], Deleter>` from the primary template. -/
structure UniquePtr where
  ptr_ : CompressedPair Addr Deleter
  array : Bool
  deriving DecidableEq, Repr

/-- Models `UniquePtr::Get`. -/
def UniquePtr.Get (u : UniquePtr) : Addr := u.ptr_.GetFirst

/-- Models `UniquePtr::GetDeleter`. -/
def UniquePtr.GetDeleter (u : UniquePtr) : Deleter := u.ptr_.GetSecond

/-- Models `UniquePtr::operator bool`. -/
def UniquePtr.toBool (u : UniquePtr) : Bool := decide (u.ptr_.GetFirst ≠ 0)

/-- Models `UniquePtr::UniquePtr(T* ptr, Deleter deleter)`; the one-argument constructor passes
`Deleter()`. -/
def UniquePtr.ctor (array : Bool) (ptr : Addr) (deleter : Deleter) : UniquePtr :=
  ⟨⟨ptr, deleter⟩, array⟩

/-- The call `ptr_.GetSecond()(a)` or, in the array specialization with
`std::is_same_v<Deleter, Slug>`, `ptr_.GetSecond()(a, 0)`, made by `u`; the call is
appended to the log of deleter calls. -/
def UniquePtr.invokeDeleter (u : UniquePtr) (a : Addr) (log : List Invocation) :
    List Invocation :=
  if u.array then
    if u.ptr_.GetSecond = Deleter.slug then log ++ [⟨u.ptr_.GetSecond, true, a, u.Get⟩]
    else log ++ [⟨u.ptr_.GetSecond, false, a, u.Get⟩]
  else log ++ [⟨u.ptr_.GetSecond, false, a, u.Get⟩]

/-- Models `UniquePtr::DeletePointer`. -/
def UniquePtr.DeletePointer (u : UniquePtr) (log : List Invocation) : List Invocation :=
  u.invokeDeleter u.ptr_.GetFirst log

/-- Models `UniquePtr::~UniquePtr`. -/
def UniquePtr.dtor (u : UniquePtr) (log : List Invocation) : List Invocation :=
  u.DeletePointer log

/-- Models `UniquePtr::Release`: the returned address and the pointer afterwards. -/
def UniquePtr.Release (u : UniquePtr) : Addr × UniquePtr :=
  (u.ptr_.GetFirst, ⟨⟨0, u.ptr_.second_⟩, u.array⟩)

/-- Models `UniquePtr::Reset(T* ptr)`: the pointer afterwards and the log of deleter calls. -/
def UniquePtr.Reset (u : UniquePtr) (ptr : Addr) (log : List Invocation) :
    UniquePtr × List Invocation :=
  if u.Get ≠ 0 then
    (⟨⟨ptr, u.ptr_.second_⟩, u.array⟩,
      UniquePtr.invokeDeleter ⟨⟨ptr, u.ptr_.second_⟩, u.array⟩ u.Get log)
  else (⟨⟨ptr, u.ptr_.second_⟩, u.array⟩, log)

/-- Models `UniquePtr::UniquePtr(UniquePtr&& other)`: the new pointer and the source after the
call. -/
def UniquePtr.ctorMove (other : UniquePtr) : UniquePtr × UniquePtr :=
  (⟨⟨other.Get, other.GetDeleter⟩, other.array⟩, other.Release.2)

/-- Models `UniquePtr::operator=(UniquePtr&& other)`: the assigned pointer, the source after the
call and the log; `same` is the test `this == &other`. -/
def UniquePtr.assignMove (this other : UniquePtr) (same : Bool) (log : List Invocation) :
    UniquePtr × UniquePtr × List Invocation :=
  if same then (this, other, log)
  else (⟨⟨other.Get, other.GetDeleter⟩, this.array⟩, other.Release.2, (this.Reset 0 log).2)

/-- Models `UniquePtr::Swap`. -/
def UniquePtr.Swap (this other : UniquePtr) : UniquePtr × UniquePtr :=
  (⟨⟨other.ptr_.first_, other.ptr_.second_⟩, this.array⟩,
    ⟨⟨this.ptr_.first_, this.ptr_.second_⟩, other.array⟩)

/-! ## The pointee destructor with a body (sw_fwd.h, shared.h)

The operations above run pointee destructors whose user-written body is empty. The
variants below take the body as an argument, so that a destructor which observes or
uses the self handle can be run. -/

/-- The memory of the `RefCounted` pointees: at the address of a live object the value
`count_` of its `SimpleCounter` (a 64-bit `size_t`), `none` where no live object is;
`destroyed` counts the runs of `Deleter::Destroy` per address. -/
structure RcHeap where
  count : Addr → Option Nat
  destroyed : Addr → Nat

/-- The memory before any pointee was built. -/
def RcHeap.empty : RcHeap := ⟨fun _ => none, fun _ => 0⟩

/-- The expression `new T(...)` for a `RefCounted` type, evaluated by a caller who obtains
address `a`: `RefCounted()` allocates a counter with `count_ = 0`. -/
def RcHeap.newObject (a : Addr) (h : RcHeap) : RcHeap :=
  ⟨fun x => if x = a then some 0 else h.count x, h.destroyed⟩

/-- Models `RefCounted::RefCount` called through the address `a`; `none` is a call through
a null or dangling address. -/
def RefCounted.RefCount (a : Addr) (h : RcHeap) : Option Nat :=
  if a = 0 then none else h.count a

/-- Models `RefCounted::IncRef` called through the address `a`. -/
def RefCounted.IncRef (a : Addr) (h : RcHeap) : Option RcHeap :=
  match RefCounted.RefCount a h with
  | none => none
  | some n => some ⟨fun x => if x = a then some ((n + 1) % 2 ^ 64) else h.count x, h.destroyed⟩

/-- Models `RefCounted::DecRef` called through the address `a`: the counter is decremented
(modulo `2^64`) and, when it is then 0, `Deleter::Destroy` deletes the object. -/
def RefCounted.DecRef (a : Addr) (h : RcHeap) : Option RcHeap :=
  match RefCounted.RefCount a h with
  | none => none
  | some n =>
    if (n + (2 ^ 64 - 1)) % 2 ^ 64 = 0 then
      some ⟨fun x => if x = a then none else h.count x,
        fun x => if x = a then h.destroyed x + 1 else h.destroyed x⟩
    else some ⟨fun x => if x = a then some ((n + (2 ^ 64 - 1)) % 2 ^ 64) else h.count x,
      h.destroyed⟩

/-- The field of `IntrusivePtr<T>`. -/
structure IntrusivePtr where
  ptr_ : Addr
  deriving DecidableEq, Repr

/-- The value of `dynamic_cast<T*>(p)`: `p` when the cast succeeds (`castOk`), else null. -/
def dynamicCast (castOk : Bool) (p : Addr) : Addr :=
  if castOk then p else 0

/-- Models `IntrusivePtr::IntrusivePtr()` and `IntrusivePtr(std::nullptr_t)`. -/
def IntrusivePtr.ctorDefault : IntrusivePtr := ⟨0⟩

/-- Models `IntrusivePtr::IntrusivePtr(T* ptr)`. -/
def IntrusivePtr.ctorRaw (ptr : Addr) (h : RcHeap) : Option (IntrusivePtr × RcHeap) :=
  if ptr ≠ 0 then (RefCounted.IncRef ptr h).map fun h1 => (⟨ptr⟩, h1) else some (⟨ptr⟩, h)

/-- Models `IntrusivePtr::IntrusivePtr(const IntrusivePtr<Y>& other)`; `castOk` tells whether
the `dynamic_cast` of the address of `other` to `T*` succeeds. -/
def IntrusivePtr.ctorCopyCross (castOk : Bool) (other : IntrusivePtr) (h : RcHeap) :
    Option (IntrusivePtr × RcHeap) :=
  if other.ptr_ ≠ 0 then
    (RefCounted.IncRef (dynamicCast castOk other.ptr_) h).map fun h1 =>
      (⟨dynamicCast castOk other.ptr_⟩, h1)
  else some (⟨0⟩, h)

/-- Models `IntrusivePtr::IntrusivePtr(IntrusivePtr<Y>&& other)`: the new pointer and the
source after the call. -/
def IntrusivePtr.ctorMoveCross (castOk : Bool) (other : IntrusivePtr) :
    IntrusivePtr × IntrusivePtr :=
  (⟨dynamicCast castOk other.ptr_⟩, ⟨0⟩)

/-- Models `IntrusivePtr::IntrusivePtr(const IntrusivePtr& other)`. -/
def IntrusivePtr.ctorCopy (other : IntrusivePtr) (h : RcHeap) : Option (IntrusivePtr × RcHeap) :=
  if other.ptr_ ≠ 0 then (RefCounted.IncRef other.ptr_ h).map fun h1 => (⟨other.ptr_⟩, h1)
  else some (⟨other.ptr_⟩, h)

/-- Models `IntrusivePtr::IntrusivePtr(IntrusivePtr&& other)`: the new pointer and the source
after the call. -/
def IntrusivePtr.ctorMove (other : IntrusivePtr) : IntrusivePtr × IntrusivePtr :=
  (⟨other.ptr_⟩, ⟨0⟩)

/-- Models `IntrusivePtr::~IntrusivePtr`. -/
def IntrusivePtr.dtor (this : IntrusivePtr) (h : RcHeap) : Option RcHeap :=
  if this.ptr_ ≠ 0 then RefCounted.DecRef this.ptr_ h else some h

/-- Models `IntrusivePtr::Reset()`. -/
def IntrusivePtr.Reset (this : IntrusivePtr) (h : RcHeap) : Option (IntrusivePtr × RcHeap) :=
  if this.ptr_ ≠ 0 then (RefCounted.DecRef this.ptr_ h).map fun h1 => (⟨0⟩, h1)
  else some (this, h)

/-- Models `IntrusivePtr::Reset(T* ptr)`. -/
def IntrusivePtr.ResetPtr (this : IntrusivePtr) (ptr : Addr) (h : RcHeap) :
    Option (IntrusivePtr × RcHeap) :=
  if ptr ≠ this.ptr_ then
    ((if this.ptr_ ≠ 0 then RefCounted.DecRef this.ptr_ h else some h).bind fun h1 =>
      if ptr ≠ 0 then RefCounted.IncRef ptr h1 else some h1).map fun h2 => (⟨ptr⟩, h2)
  else some (this, h)

/-- Models `IntrusivePtr::operator=(const IntrusivePtr& other)`. -/
def IntrusivePtr.assignCopy (this other : IntrusivePtr) (h : RcHeap) :
    Option (IntrusivePtr × RcHeap) :=
  IntrusivePtr.ResetPtr this other.ptr_ h

/-- Models `IntrusivePtr::operator=(const IntrusivePtr<Y>& other)`. -/
def IntrusivePtr.assignCopyCross (castOk : Bool) (this other : IntrusivePtr) (h : RcHeap) :
    Option (IntrusivePtr × RcHeap) :=
  ((if other.ptr_ ≠ 0 then RefCounted.IncRef (dynamicCast castOk other.ptr_) h else some h).bind
    fun h1 => if this.ptr_ ≠ 0 then RefCounted.DecRef this.ptr_ h1 else some h1).map
    fun h2 => (⟨if other.ptr_ ≠ 0 then dynamicCast castOk other.ptr_ else 0⟩, h2)

/-- Models `IntrusivePtr::operator=(IntrusivePtr&& other)`: the assigned pointer, the source
after the call and the memory; `same` is the test `this == &other`. -/
def IntrusivePtr.assignMove (this other : IntrusivePtr) (same : Bool) (h : RcHeap) :
    Option (IntrusivePtr × IntrusivePtr × RcHeap) :=
  if same then some (this, other, h)
  else
    (if this.ptr_ ≠ 0 then RefCounted.DecRef this.ptr_ h else some h).map fun h1 =>
      (⟨other.ptr_⟩, ⟨0⟩, h1)

/-- Models `IntrusivePtr::operator=(IntrusivePtr<Y>&& other)`: the assigned pointer, the
source after the call and the memory. -/
def IntrusivePtr.assignMoveCross (castOk : Bool) (this other : IntrusivePtr) (h : RcHeap) :
    Option (IntrusivePtr × IntrusivePtr × RcHeap) :=
  ((if this.ptr_ = other.ptr_ then RefCounted.DecRef this.ptr_ h else some h).bind fun h1 =>
    if this.ptr_ ≠ 0 then RefCounted.DecRef this.ptr_ h1 else some h1).map fun h2 =>
      (⟨dynamicCast castOk other.ptr_⟩, ⟨0⟩, h2)

/-- Models `IntrusivePtr::Swap`. -/
def IntrusivePtr.Swap (this other : IntrusivePtr) : IntrusivePtr × IntrusivePtr :=
  (other, this)

/-- Models `IntrusivePtr::Get`. -/
def IntrusivePtr.Get (p : IntrusivePtr) : Addr := p.ptr_

/-- Models `IntrusivePtr::UseCount`; `none` is a read through a dangling address. -/
def IntrusivePtr.UseCount (p : IntrusivePtr) (h : RcHeap) : Option Nat :=
  if p.ptr_ ≠ 0 then RefCounted.RefCount p.ptr_ h else some 0

/-- Models `IntrusivePtr::operator bool`. -/
def IntrusivePtr.toBool (p : IntrusivePtr) : Bool := decide (p.ptr_ ≠ 0)

/-- A state of a program over `IntrusivePtr` objects: the memory of the pointees and the
pointer objects created so far, named by position; a destroyed object is `none`. -/
structure RcMachine where
  heap : RcHeap
  ptrs : List (Option IntrusivePtr)

/-- The state of a program that has not run yet. -/
def RcMachine.init : RcMachine := ⟨RcHeap.empty, []⟩

/-- The public operations of `IntrusivePtr`, on objects named by position; `ok` is the
outcome of the `dynamic_cast` in the cross-type operations. -/
inductive RcOp where
  | newObject (a : Addr)
  | ctorDefault
  | ctorRaw (a : Addr)
  | copy (i : Nat)
  | copyCross (ok : Bool) (i : Nat)
  | move (i : Nat)
  | moveCross (ok : Bool) (i : Nat)
  | assignCopy (i k : Nat)
  | assignCopyCross (ok : Bool) (i k : Nat)
  | assignMove (i k : Nat)
  | assignMoveCross (ok : Bool) (i k : Nat)
  | dtor (i : Nat)
  | reset (i : Nat)
  | resetPtr (i : Nat) (a : Addr)
  | swap (i k : Nat)
  deriving DecidableEq, Repr

/-- The live `IntrusivePtr` object at position `i`. -/
def RcMachine.ptr (m : RcMachine) (i : Nat) : Option IntrusivePtr := (m.ptrs.get? i).join

/-- One public operation; `none` when it names a dead object, applies a cross-type
operation to one object, or runs into undefined behaviour. -/
def RcMachine.step (m : RcMachine) : RcOp → Option RcMachine
  | .newObject a => some ⟨m.heap.newObject a, m.ptrs⟩
  | .ctorDefault => some ⟨m.heap, m.ptrs ++ [some IntrusivePtr.ctorDefault]⟩
  | .ctorRaw a =>
    (IntrusivePtr.ctorRaw a m.heap).map fun r => ⟨r.2, m.ptrs ++ [some r.1]⟩
  | .copy i =>
    (m.ptr i).bind fun o =>
      (IntrusivePtr.ctorCopy o m.heap).map fun r => ⟨r.2, m.ptrs ++ [some r.1]⟩
  | .copyCross ok i =>
    (m.ptr i).bind fun o =>
      (IntrusivePtr.ctorCopyCross ok o m.heap).map fun r => ⟨r.2, m.ptrs ++ [some r.1]⟩
  | .move i =>
    (m.ptr i).bind fun o =>
      some ⟨m.heap, (m.ptrs.set i (some (IntrusivePtr.ctorMove o).2)) ++
        [some (IntrusivePtr.ctorMove o).1]⟩
  | .moveCross ok i =>
    (m.ptr i).bind fun o =>
      some ⟨m.heap, (m.ptrs.set i (some (IntrusivePtr.ctorMoveCross ok o).2)) ++
        [some (IntrusivePtr.ctorMoveCross ok o).1]⟩
  | .assignCopy i k =>
    (m.ptr i).bind fun t => (m.ptr k).bind fun o =>
      (IntrusivePtr.assignCopy t o m.heap).map fun r => ⟨r.2, m.ptrs.set i (some r.1)⟩
  | .assignCopyCross ok i k =>
    if i = k then none
    else
      (m.ptr i).bind fun t => (m.ptr k).bind fun o =>
        (IntrusivePtr.assignCopyCross ok t o m.heap).map fun r => ⟨r.2, m.ptrs.set i (some r.1)⟩
  | .assignMove i k =>
    (m.ptr i).bind fun t => (m.ptr k).bind fun o =>
      (IntrusivePtr.assignMove t o (decide (i = k)) m.heap).map fun r =>
        ⟨r.2.2, (m.ptrs.set k (some r.2.1)).set i (some r.1)⟩
  | .assignMoveCross ok i k =>
    if i = k then none
    else
      (m.ptr i).bind fun t => (m.ptr k).bind fun o =>
        (IntrusivePtr.assignMoveCross ok t o m.heap).map fun r =>
          ⟨r.2.2, (m.ptrs.set k (some r.2.1)).set i (some r.1)⟩
  | .dtor i =>
    (m.ptr i).bind fun t =>
      (IntrusivePtr.dtor t m.heap).map fun h => ⟨h, m.ptrs.set i none⟩
  | .reset i =>
    (m.ptr i).bind fun t =>
      (IntrusivePtr.Reset t m.heap).map fun r => ⟨r.2, m.ptrs.set i (some r.1)⟩
  | .resetPtr i a =>
    (m.ptr i).bind fun t =>
      (IntrusivePtr.ResetPtr t a m.heap).map fun r => ⟨r.2, m.ptrs.set i (some r.1)⟩
  | .swap i k =>
    (m.ptr i).bind fun t => (m.ptr k).bind fun o =>
      some ⟨m.heap, (m.ptrs.set i (some (IntrusivePtr.Swap t o).1)).set k
        (some (IntrusivePtr.Swap t o).2)⟩

/-- Run a program over `IntrusivePtr` objects. -/
def RcMachine.run (m : RcMachine) : List RcOp → Option RcMachine
  | [] => some m
  | op :: rest => (m.step op).bind fun m1 => m1.run rest

/-- A state is reachable when some program leads to it from the initial state. -/
def RcMachine.Reachable (m : RcMachine) : Prop :=
  ∃ prog : List RcOp, RcMachine.init.run prog = some m

/-- Number of live `IntrusivePtr` objects whose address is `a`. -/
def RcMachine.live (m : RcMachine) (a : Addr) : Nat :=
  (m.ptrs.filter fun o => o.any fun p => decide (p.ptr_ = a)).length

/-- The counting invariant of `IntrusivePtr`: the counter of every live pointee equals the
number of live pointers whose address is the pointee. -/
def RcMachine.CountsAgree (m : RcMachine) : Prop :=
  ∀ a n, a ≠ 0 → m.heap.count a = some n → n = m.live a

/-! ## The layouts of `CompressedPair` (compressed_pair.h)

The primary template (both elements stored) is `CompressedPair` above. An elided element
is a private base class: it is default-constructed whatever the constructor is given, and
its accessor returns the base subobject. -/

/-- Models the constructors `CompressedPair(first, second)` of the primary template. -/
def CompressedPair.ctor {F S : Type} (first : F) (second : S) : CompressedPair F S :=
  ⟨first, second⟩

/-- Models `CompressedPair::Swap` of the primary template: the two pairs after the call. -/
def CompressedPair.Swap {F S : Type} (this other : CompressedPair F S) :
    CompressedPair F S × CompressedPair F S :=
  (⟨other.first_, other.second_⟩, ⟨this.first_, this.second_⟩)

/-- The specialization `CompressedPair<F, S, true, false, false>`: `F` is a base class, only
`second_` is stored. -/
structure CompressedPairFirstElided (F S : Type) where
  second_ : S

/-- Models the constructors of the first-elided layout: the `F` argument is not used. -/
def CompressedPairFirstElided.ctor {F S : Type} (_first : F) (second : S) :
    CompressedPairFirstElided F S :=
  ⟨second⟩

/-- Models `GetFirst` of the first-elided layout, const and non-const: the base subobject, a
value-initialized `F`. -/
def CompressedPairFirstElided.GetFirst {F S : Type} [Inhabited F]
    (_p : CompressedPairFirstElided F S) : F :=
  default

/-- Models the non-const overload of `GetSecond` in the first-elided layout, declared
`S&& GetSecond() { return second_; }`: the return statement binds an rvalue reference to the
lvalue `second_`, which is ill-formed, so a program that calls the overload is rejected and
the call has no value (`none`). The three other layouts declare `S& GetSecond()`. -/
def CompressedPairFirstElided.GetSecond {F S : Type} (_p : CompressedPairFirstElided F S) :
    Option S :=
  none

/-- Models the const overload `const S& GetSecond() const` of the first-elided layout. -/
def CompressedPairFirstElided.GetSecondConst {F S : Type}
    (p : CompressedPairFirstElided F S) : S :=
  p.second_

/-- Models `Swap` of the first-elided layout: only `second_` is swapped. -/
def CompressedPairFirstElided.Swap {F S : Type} (this other : CompressedPairFirstElided F S) :
    CompressedPairFirstElided F S × CompressedPairFirstElided F S :=
  (⟨other.second_⟩, ⟨this.second_⟩)

/-- The specialization `CompressedPair<F, S, false, true, false>`: `S` is a base class, only
`first_` is stored. -/
structure CompressedPairSecondElided (F S : Type) where
  first_ : F

/-- Models the constructors of the second-elided layout: the `S` argument is not used. -/
def CompressedPairSecondElided.ctor {F S : Type} (first : F) (_second : S) :
    CompressedPairSecondElided F S :=
  ⟨first⟩

/-- Models `GetFirst` of the second-elided layout, const and non-const. -/
def CompressedPairSecondElided.GetFirst {F S : Type} (p : CompressedPairSecondElided F S) : F :=
  p.first_

/-- Models `GetSecond` of the second-elided layout, const and non-const: the base subobject,
a value-initialized `S`. -/
def CompressedPairSecondElided.GetSecond {F S : Type} [Inhabited S]
    (_p : CompressedPairSecondElided F S) : S :=
  default

/-- Models `Swap` of the second-elided layout: only `first_` is swapped. -/
def CompressedPairSecondElided.Swap {F S : Type} (this other : CompressedPairSecondElided F S) :
    CompressedPairSecondElided F S × CompressedPairSecondElided F S :=
  (⟨other.first_⟩, ⟨this.first_⟩)

/-- The specialization `CompressedPair<F, S, true, true, false>`: both are base classes,
nothing is stored. -/
inductive CompressedPairBothElided (F S : Type) where
  | mk : CompressedPairBothElided F S

/-- Models the constructors of the both-elided layout: no argument is used. -/
def CompressedPairBothElided.ctor {F S : Type} (_first : F) (_second : S) :
    CompressedPairBothElided F S :=
  CompressedPairBothElided.mk

/-- Models `GetFirst` of the both-elided layout, const and non-const. -/
def CompressedPairBothElided.GetFirst {F S : Type} [Inhabited F]
    (_p : CompressedPairBothElided F S) : F :=
  default

/-- Models `GetSecond` of the both-elided layout, const and non-const. -/
def CompressedPairBothElided.GetSecond {F S : Type} [Inhabited S]
    (_p : CompressedPairBothElided F S) : S :=
  default

/-- Models `Swap` of the both-elided layout: the body is empty. -/
def CompressedPairBothElided.Swap {F S : Type} (this other : CompressedPairBothElided F S) :
    CompressedPairBothElided F S × CompressedPairBothElided F S :=
  (this, other)

/-- The plain pair a first-elided pair stands for, read through the const accessors. -/
def CompressedPairFirstElided.toPlain {F S : Type} [Inhabited F]
    (p : CompressedPairFirstElided F S) : CompressedPair F S :=
  ⟨p.GetFirst, p.GetSecondConst⟩

/-- The plain pair a second-elided pair stands for. -/
def CompressedPairSecondElided.toPlain {F S : Type} [Inhabited S]
    (p : CompressedPairSecondElided F S) : CompressedPair F S :=
  ⟨p.GetFirst, p.GetSecond⟩

/-- The plain pair a both-elided pair stands for. -/
def CompressedPairBothElided.toPlain {F S : Type} [Inhabited F] [Inhabited S]
    (p : CompressedPairBothElided F S) : CompressedPair F S :=
  ⟨p.GetFirst, p.GetSecond⟩

/-! ## The choice of the layout of `CompressedPair` (compressed_pair.h) -/

/-- What the declaration of `CompressedPair` asks about an element type `V`:
`std::is_empty_v<V>` and `std::is_final_v<V>`. -/
structure TypeTraits where
  is_empty : Bool
  is_final : Bool
  deriving DecidableEq, Repr

/-- Models the variable template `is_compressed<V>`. -/
def is_compressed (V : TypeTraits) : Bool :=
  V.is_empty && !V.is_final

/-- The four class templates a `CompressedPair<F, S>` can name: the primary template and the
three partial specializations. -/
inductive Layout where
  | bothStored
  | firstElided
  | secondElided
  | bothElided
  deriving DecidableEq, Repr

/-- The class template picked for the three `bool` template arguments: the partial
specializations `<F, S, true, false, false>`, `<F, S, false, true, false>` and
`<F, S, true, true, false>`, and the primary template for every other combination. -/
def Layout.select (is_compressed_F is_compressed_S is_derived : Bool) : Layout :=
  match is_compressed_F, is_compressed_S, is_derived with
  | true, false, false => Layout.firstElided
  | false, true, false => Layout.secondElided
  | true, true, false => Layout.bothElided
  | _, _, _ => Layout.bothStored

/-- The layout of `CompressedPair<F, S>` with the default template arguments; `base_F_S` is
the value of `std::is_base_of_v<F, S>` and `base_S_F` the value of
`std::is_base_of_v<S, F>`. -/
def Layout.ofTypes (F S : TypeTraits) (base_F_S base_S_F : Bool) : Layout :=
  Layout.select (is_compressed F) (is_compressed S) (base_F_S || base_S_F)

/-- Whether the layout has `F` as a private base class instead of the field `first_`. -/
def Layout.elidesFirst : Layout → Bool
  | Layout.firstElided => true
  | Layout.bothElided => true
  | _ => false

/-- Whether the layout has `S` as a private base class instead of the field `second_`. -/
def Layout.elidesSecond : Layout → Bool
  | Layout.secondElided => true
  | Layout.bothElided => true
  | _ => false

/-! ## Indexing in the array form of `UniquePtr` (unique.h) -/

/-- The elements of the arrays in memory: the element living at an address, `none` where no
element lives. Addresses count in elements here, so `a + i` is the address of `a[i]`. -/
structure ArrayMem where
  elem : Addr → Option Int

/-- The expression `new T[n]` with the elements `xs`, evaluated by a caller who obtains
address `a`. -/
def ArrayMem.newArray (mem : ArrayMem) (a : Addr) (xs : List Int) : ArrayMem :=
  ⟨fun x => if a ≤ x ∧ x < a + xs.length then xs.get? (x - a) else mem.elem x⟩

/-- Models `UniquePtr<T[], Deleter>::operator[]`, that is `ptr_.GetFirst()[i]`, read as a
value; `none` is a read through the null address or where no element lives. -/
def UniquePtr.index (u : UniquePtr) (i : Nat) (mem : ArrayMem) : Option Int :=
  if u.ptr_.GetFirst = 0 then none else mem.elem (u.ptr_.GetFirst + i)

/-! ## Auxiliary notions used in the statements -/

/-- The pointee of block `c`, when its type has the self-observation capability, holds a
self handle that is empty or refers to `c`, as the constructors install it. -/
def SelfHandleOk (h : Heap) (c : Addr) (b : ControlBlock) : Prop :=
  b.esft = true → (h.objs b.obj_).weak_this_.ctrl_ = 0 ∨ (h.objs b.obj_).weak_this_.ctrl_ = c

/-- The weak units the pointee of block `c` gives back to `c` when its destructor runs from
`DecreaseSharedCounter`: one when it has a `weak_this_` member on `c`, else none. -/
def selfUnits (h : Heap) (c : Addr) (b : ControlBlock) : Int :=
  if b.esft = true ∧ (b.flavor = Flavor.object ∨ b.obj_ ≠ 0) ∧
      (h.objs b.obj_).weak_this_.ctrl_ = c then 1 else 0

/-- Whether the release of the last shared unit of block `b` runs the destructor of the
pointee. -/
def destroysAtZero (b : ControlBlock) : Bool :=
  decide (b.flavor = Flavor.object ∨ (b.esft = true ∧ b.obj_ ≠ 0))

/-- The block at `c` right after `DecreaseSharedCounter` took one unit from `b`. -/
def decreasedBlock (h : Heap) (c : Addr) (b : ControlBlock) : ControlBlock :=
  if b.shared_counter_ = 1 then
    ⟨0, b.weak_counter_ - selfUnits h c b, b.flavor, b.esft,
      if b.flavor = Flavor.pointer ∧ b.esft = true then 0 else b.obj_⟩
  else { b with shared_counter_ := b.shared_counter_ - 1 }

/-- The block at `c` after a `SharedPtr` on it let go of its unit: freed when both counters
are then zero. -/
def releasedBlock (h : Heap) (c : Addr) (b : ControlBlock) : Option ControlBlock :=
  if (decreasedBlock h c b).shared_counter_ = 0 ∧ (decreasedBlock h c b).weak_counter_ = 0 then none
  else some (decreasedBlock h c b)

/-- A heap with one control block, at address `1`. -/
def Heap.single (b : ControlBlock) : Heap :=
  ⟨fun x => if x = 1 then some b else none, 1, fun _ => ⟨0, 0, ⟨0, 0⟩⟩⟩

/-- A heap with two control blocks, at addresses `1` and `2`. -/
def Heap.pair (b1 b2 : ControlBlock) : Heap :=
  ⟨fun x => if x = 1 then some b1 else if x = 2 then some b2 else none, 2,
    fun _ => ⟨0, 0, ⟨0, 0⟩⟩⟩

@[simp] theorem Outcome.bind_ok {α β : Type} (a : α) (h : Heap) (f : α → Heap → Outcome β) :
    (Outcome.ok a h).bind f = f a h := rfl

@[simp] theorem Outcome.bind_ub {α β : Type} (f : α → Heap → Outcome β) :
    (Outcome.ub : Outcome α).bind f = Outcome.ub := rfl

@[simp] theorem Outcome.bind_fuel {α β : Type} (f : α → Heap → Outcome β) :
    (Outcome.fuel : Outcome α).bind f = Outcome.fuel := rfl

@[simp] theorem Outcome.bind_badWeakPtr {α β : Type} (h : Heap) (f : α → Heap → Outcome β) :
    (Outcome.badWeakPtr h : Outcome α).bind f = Outcome.badWeakPtr h := rfl

theorem Heap.block_of_ne_zero (h : Heap) {c : Addr} (hc : c ≠ 0) : h.block c = h.ctrl c := by
  simp [Heap.block, hc]

theorem Heap.ne_zero_of_block {h : Heap} {c : Addr} {b : ControlBlock}
    (hb : h.block c = some b) : c ≠ 0 := by
  intro h0
  simp [Heap.block, h0] at hb

theorem Heap.block_setCtrl_same (h : Heap) {c : Addr} (hc : c ≠ 0) (b : Option ControlBlock) :
    (h.setCtrl c b).block c = b := by
  simp [Heap.block, Heap.setCtrl, hc]

theorem Heap.block_setCtrl_other (h : Heap) {c d : Addr} (hd : d ≠ c) (b : Option ControlBlock) :
    (h.setCtrl c b).block d = h.block d := by
  simp [Heap.block, Heap.setCtrl, hd]

theorem toSizeT_succ {x : Int} (hx : 0 ≤ x) : toSizeT (x + 1) = toSizeT x + 1 := by
  have h1 : 0 ≤ x + 1 := by omega
  simp only [toSizeT, hx, h1, if_true]
  omega

theorem WeakPtr.Expired_of_block {w : WeakPtr} {h : Heap} {b : ControlBlock}
    (hb : h.block w.ctrl_ = some b) : w.Expired h = some (decide (b.shared_counter_ = 0)) := by
  have hc := Heap.ne_zero_of_block hb
  simp [WeakPtr.Expired, hc, GetSharedCounter, hb]

theorem WeakPtr.Expired_true_iff (w : WeakPtr) (h : Heap) :
    w.Expired h = some true ↔
      w.ctrl_ = 0 ∨ ∃ b, h.block w.ctrl_ = some b ∧ b.shared_counter_ = 0 := by
  by_cases hc : w.ctrl_ = 0
  · simp [WeakPtr.Expired, hc]
  · cases hb : h.block w.ctrl_ with
    | none => simp [WeakPtr.Expired, hc, GetSharedCounter, hb]
    | some b => simp [WeakPtr.Expired, hc, GetSharedCounter, hb]

theorem WeakPtr.Expired_false_iff (w : WeakPtr) (h : Heap) :
    w.Expired h = some false ↔ ∃ b, h.block w.ctrl_ = some b ∧ b.shared_counter_ ≠ 0 := by
  by_cases hc : w.ctrl_ = 0
  · simp [WeakPtr.Expired, hc, Heap.block]
  · cases hb : h.block w.ctrl_ with
    | none => simp [WeakPtr.Expired, hc, GetSharedCounter, hb]
    | some b => simp [WeakPtr.Expired, hc, GetSharedCounter, hb]

theorem SharedPtr.ctorWeak_of_block {w : WeakPtr} {h : Heap} {b : ControlBlock}
    (hb : h.block w.ctrl_ = some b) (hs : b.shared_counter_ ≠ 0) :
    SharedPtr.ctorWeak w h = .ok ⟨w.ptr_, w.ctrl_⟩
      (h.setCtrl w.ctrl_ (some { b with shared_counter_ := b.shared_counter_ + 1 })) := by
  have hc := Heap.ne_zero_of_block hb
  simp [SharedPtr.ctorWeak, WeakPtr.Expired_of_block hb, hs, hc, IncreaseSharedCounter, hb]

theorem SharedPtr.ctorWeak_expired {w : WeakPtr} {h : Heap} (he : w.Expired h = some true) :
    SharedPtr.ctorWeak w h = .badWeakPtr h := by
  simp [SharedPtr.ctorWeak, he]

theorem inlineAddr_ne_zero (c : Addr) : inlineAddr c ≠ 0 := by
  simp [inlineAddr]

@[simp] theorem Outcome.val?_ok {α : Type} (a : α) (h : Heap) : (Outcome.ok a h).val? = some a := rfl

theorem makeShared_lock_example (esft : Bool) (v : Int) (h0 : Heap) :
    ((MakeShared esft v h0).bind fun sp h1 =>
      (WeakPtr.ctorShared sp h1).bind fun wp h2 =>
        (WeakPtr.Lock wp h2).bind fun sp2 h3 =>
          .ok (wp.Expired h2, sp2.deref h3, sp2.UseCount h3) h3).val?
      = some (some false, some v, some 2) := by
  cases esft
  · simp [MakeShared, WeakPtr.ctorShared, IncreaseWeakCounter, Heap.block, Heap.alloc,
      Heap.setObj, WeakPtr.Lock, WeakPtr.Expired, GetSharedCounter, Heap.setCtrl,
      SharedPtr.ctorWeak, IncreaseSharedCounter, SharedPtr.deref, inlineAddr,
      SharedPtr.UseCount, toSizeT]
  · simp [MakeShared, installWeakThis, SetWeakThis, WeakPtr.assignCopy, WeakPtr.dtor,
      WeakPtr.dtorWith, DecreaseWeakCounter, GetWeakCounter,
      WeakPtr.ctorShared, IncreaseWeakCounter, Heap.block, Heap.alloc,
      Heap.setObj, WeakPtr.Lock, WeakPtr.Expired, GetSharedCounter, Heap.setCtrl,
      SharedPtr.ctorWeak, IncreaseSharedCounter, SharedPtr.deref, inlineAddr,
      SharedPtr.UseCount, toSizeT]

theorem DecreaseSharedCounter_more {h : Heap} {c : Addr} {b : ControlBlock}
    (hb : h.block c = some b) (hs : b.shared_counter_ ≠ 1) :
    DecreaseSharedCounter c 1 h =
      .ok () (h.setCtrl c (some { b with shared_counter_ := b.shared_counter_ - 1 })) := by
  have h0 : ¬ b.shared_counter_ - 1 = 0 := by omega
  simp [DecreaseSharedCounter, hb, h0]

theorem DecreaseSharedCounter_last {h : Heap} {c : Addr} {b : ControlBlock}
    (hb : h.block c = some b) (hs : b.shared_counter_ = 1) (hself : SelfHandleOk h c b) :
    ∃ h', DecreaseSharedCounter c 1 h = .ok () h' ∧
      h'.block c = some ⟨0, b.weak_counter_ - selfUnits h c b, b.flavor, b.esft,
        if b.flavor = Flavor.pointer ∧ b.esft = true then 0 else b.obj_⟩ ∧
      (∀ d, d ≠ c → h'.block d = h.block d) ∧ h'.next = h.next ∧
      (h'.objs b.obj_).dtorCalls =
        (h.objs b.obj_).dtorCalls + (if destroysAtZero b then 1 else 0) ∧
      (∀ a, a ≠ b.obj_ → h'.objs a = h.objs a) := by
  have hc := Heap.ne_zero_of_block hb
  obtain ⟨s, k, fl, e, o⟩ := b
  simp only at hs
  subst hs
  unfold SelfHandleOk at hself
  simp only at hself
  have hb' := hb
  rw [Heap.block_of_ne_zero h hc] at hb'
  have hc' : ¬ (0 = c) := fun e => hc e.symm
  cases fl <;> cases e
  · -- pointer, no capability
    simp [DecreaseSharedCounter, hb', Heap.block, Heap.setCtrl, hc, selfUnits, destroysAtZero]
    intro d hd; simp [hd]
  · -- pointer, capability
    by_cases ho : o = 0
    · subst ho
      simp [DecreaseSharedCounter, hb', IncreaseSharedCounter, deleteObj, deleteObjWith,
        Heap.block, Heap.setCtrl, hc, selfUnits, destroysAtZero]
      intro d hd; simp [hd]
    · rcases hself rfl with hw | hw
      · simp [DecreaseSharedCounter, hb', IncreaseSharedCounter, deleteObj, deleteObjWith,
          destroyPointeeWith, WeakPtr.dtorWith, hw,
          Heap.block, Heap.setCtrl, Heap.setObj, hc, hc', ho, selfUnits, destroysAtZero]
        exact ⟨fun d hd => by simp [hd], fun a ha ha' => absurd ha' ha⟩
      · simp [DecreaseSharedCounter, hb', IncreaseSharedCounter, deleteObj, deleteObjWith,
          destroyPointeeWith, WeakPtr.dtorWith, hw, DecreaseWeakCounter, GetSharedCounter,
          GetWeakCounter,
          Heap.block, Heap.setCtrl, Heap.setObj, hc, hc', ho, selfUnits, destroysAtZero]
        exact ⟨fun d hd => by simp [hd], fun a ha ha' => absurd ha' ha⟩
  · -- object, no capability
    simp [DecreaseSharedCounter, hb', destroyPointee, destroyPointeeWith,
      Heap.block, Heap.setCtrl, Heap.setObj, hc, hc', selfUnits, destroysAtZero]
    exact ⟨fun d hd => by simp [hd], fun a ha ha' => absurd ha' ha⟩
  · -- object, capability
    rcases hself rfl with hw | hw
    · simp [DecreaseSharedCounter, hb', IncreaseSharedCounter, destroyPointee,
        destroyPointeeWith, WeakPtr.dtorWith, hw,
        Heap.block, Heap.setCtrl, Heap.setObj, hc, hc', selfUnits, destroysAtZero]
      exact ⟨fun d hd => by simp [hd], fun a ha ha' => absurd ha' ha⟩
    · simp [DecreaseSharedCounter, hb', IncreaseSharedCounter, destroyPointee,
        destroyPointeeWith, WeakPtr.dtorWith, hw, DecreaseWeakCounter, GetSharedCounter,
        GetWeakCounter,
        Heap.block, Heap.setCtrl, Heap.setObj, hc, hc', selfUnits, destroysAtZero]
      exact ⟨fun d hd => by simp [hd], fun a ha ha' => absurd ha' ha⟩

theorem DecreaseSharedCounter_spec {h : Heap} {c : Addr} {b : ControlBlock}
    (hb : h.block c = some b) (hself : SelfHandleOk h c b) :
    ∃ h', DecreaseSharedCounter c 1 h = .ok () h' ∧
      h'.block c = some (decreasedBlock h c b) ∧
      (∀ d, d ≠ c → h'.block d = h.block d) ∧ h'.next = h.next := by
  have hc := Heap.ne_zero_of_block hb
  by_cases hs : b.shared_counter_ = 1
  · obtain ⟨h', h1, h2, h3, h4, _⟩ := DecreaseSharedCounter_last hb hs hself
    exact ⟨h', h1, by simpa [decreasedBlock, hs] using h2, h3, h4⟩
  · refine ⟨_, DecreaseSharedCounter_more hb hs, ?_, ?_, rfl⟩
    · simp [decreasedBlock, hs, Heap.block_setCtrl_same h hc]
    · intro d hd; exact Heap.block_setCtrl_other h hd _

theorem decreasedBlock_noNested (h : Heap) (c : Addr) (b : ControlBlock)
    (h0 : (decreasedBlock h c b).shared_counter_ = 0) :
    (decreasedBlock h c b).flavor = Flavor.pointer → (decreasedBlock h c b).esft = true →
      (decreasedBlock h c b).obj_ = 0 := by
  unfold decreasedBlock at h0 ⊢
  by_cases hs : b.shared_counter_ = 1
  · simp only [hs, if_true]
    intro hf he
    simp [hf, he]
  · simp only [hs, if_false] at h0
    omega

theorem deleteCtrl_spec {h : Heap} {c : Addr} {b : ControlBlock}
    (hb : h.block c = some b)
    (hn : b.flavor = Flavor.pointer → b.esft = true → b.obj_ = 0) :
    ∃ h', deleteCtrl c h = .ok () h' ∧ h'.block c = none ∧
      (∀ d, d ≠ c → h'.block d = h.block d) ∧ h'.next = h.next ∧
      (h'.objs b.obj_).dtorCalls =
        (h.objs b.obj_).dtorCalls +
          (if b.flavor = Flavor.pointer ∧ b.obj_ ≠ 0 then 1 else 0) ∧
      (∀ a, a ≠ b.obj_ → h'.objs a = h.objs a) := by
  have hc := Heap.ne_zero_of_block hb
  have hb' := hb
  rw [Heap.block_of_ne_zero h hc] at hb'
  obtain ⟨s, k, fl, e, o⟩ := b
  simp only at hn
  cases fl
  · by_cases ho : o = 0
    · subst ho
      simp [deleteCtrl, deleteCtrlFuel, hb', Heap.block, Heap.setCtrl, hc]
      intro d hd; simp [hd]
    · cases e
      · simp [deleteCtrl, deleteCtrlFuel, hb', deleteObjWith, destroyPointeeWith, ho,
          Heap.block, Heap.setCtrl, Heap.setObj, hc]
        exact ⟨fun d hd => by simp [hd], fun a ha ha' => absurd ha' ha⟩
      · exact absurd (hn rfl rfl) ho
  · simp [deleteCtrl, deleteCtrlFuel, hb', Heap.block, Heap.setCtrl, hc]
    intro d hd; simp [hd]

theorem deleteIfUnused_spec {h : Heap} {c : Addr} {b : ControlBlock}
    (hb : h.block c = some b)
    (hn : b.shared_counter_ = 0 → b.flavor = Flavor.pointer → b.esft = true → b.obj_ = 0) :
    ∃ h', deleteIfUnused c h = .ok () h' ∧
      h'.block c = (if b.shared_counter_ = 0 ∧ b.weak_counter_ = 0 then none else some b) ∧
      (∀ d, d ≠ c → h'.block d = h.block d) ∧ h'.next = h.next := by
  have hc := Heap.ne_zero_of_block hb
  by_cases hz : b.shared_counter_ = 0 ∧ b.weak_counter_ = 0
  · obtain ⟨h', h1, h2, h3, h4, _⟩ := deleteCtrl_spec hb (hn hz.1)
    refine ⟨h', ?_, by simpa [hz] using h2, h3, h4⟩
    simp [deleteIfUnused, hc, GetSharedCounter, GetWeakCounter, hb, hz, h1]
  · refine ⟨h, ?_, by simp [hz, hb], fun d _ => rfl, rfl⟩
    simp [deleteIfUnused, hc, GetSharedCounter, GetWeakCounter, hb, hz]

theorem SharedPtr.DeleteControl_spec {h : Heap} {this : SharedPtr} {b : ControlBlock}
    (hb : h.block this.ctrl_ = some b) (hself : SelfHandleOk h this.ctrl_ b) :
    ∃ this' h', SharedPtr.DeleteControl this h = .ok this' h' ∧
      h'.block this.ctrl_ = releasedBlock h this.ctrl_ b ∧
      (∀ d, d ≠ this.ctrl_ → h'.block d = h.block d) ∧ h'.next = h.next := by
  have hc := Heap.ne_zero_of_block hb
  obtain ⟨h1, e1, b1, f1, n1⟩ := DecreaseSharedCounter_spec hb hself
  by_cases hz : (decreasedBlock h this.ctrl_ b).shared_counter_ = 0 ∧
      (decreasedBlock h this.ctrl_ b).weak_counter_ = 0
  · obtain ⟨h2, e2, b2, f2, n2, _⟩ :=
      deleteCtrl_spec b1 (decreasedBlock_noNested h this.ctrl_ b hz.1)
    refine ⟨⟨this.ptr_, 0⟩, h2, ?_, ?_, ?_, ?_⟩
    · simp [SharedPtr.DeleteControl, hc, e1, GetSharedCounter, GetWeakCounter, b1, hz, e2]
    · simp [releasedBlock, hz, b2]
    · intro d hd; rw [f2 d hd, f1 d hd]
    · rw [n2, n1]
  · refine ⟨this, h1, ?_, ?_, f1, n1⟩
    · simp [SharedPtr.DeleteControl, hc, e1, GetSharedCounter, GetWeakCounter, b1, hz]
    · simp [releasedBlock, hz, b1]

theorem IncreaseSharedCounter_spec {h : Heap} {c : Addr} {b : ControlBlock}
    (hb : h.block c = some b) :
    IncreaseSharedCounter c h =
      .ok () (h.setCtrl c (some { b with shared_counter_ := b.shared_counter_ + 1 })) := by
  simp [IncreaseSharedCounter, hb]

theorem SharedPtr.toBool_of_ne {p : SharedPtr} (hp : p.ptr_ ≠ 0) : p.toBool = true := by
  simp [SharedPtr.toBool, hp]

theorem SharedPtr.assignCopy_other_block {h : Heap} {this other : SharedPtr}
    {b bo : ControlBlock} (hp : other.ptr_ ≠ 0) (hb : h.block this.ctrl_ = some b)
    (hself : SelfHandleOk h this.ctrl_ b) (hd : other.ctrl_ ≠ this.ctrl_)
    (hbo : h.block other.ctrl_ = some bo) :
    ∃ h', SharedPtr.assignCopy this other false h = .ok ⟨other.ptr_, other.ctrl_⟩ h' ∧
      h'.block this.ctrl_ = releasedBlock h this.ctrl_ b ∧
      h'.block other.ctrl_ = some { bo with shared_counter_ := bo.shared_counter_ + 1 } ∧
      (∀ d, d ≠ this.ctrl_ → d ≠ other.ctrl_ → h'.block d = h.block d) := by
  have hc := Heap.ne_zero_of_block hb
  have hco := Heap.ne_zero_of_block hbo
  obtain ⟨h1, e1, b1, f1, n1⟩ := DecreaseSharedCounter_spec hb hself
  have hbo1 : h1.block other.ctrl_ = some bo := by rw [f1 _ hd, hbo]
  have e2 := IncreaseSharedCounter_spec hbo1
  have b2 : (h1.setCtrl other.ctrl_
      (some { bo with shared_counter_ := bo.shared_counter_ + 1 })).block this.ctrl_ =
      some (decreasedBlock h this.ctrl_ b) := by
    rw [Heap.block_setCtrl_other h1 (Ne.symm hd), b1]
  obtain ⟨h3, e3, b3, f3, _⟩ := deleteIfUnused_spec b2 (decreasedBlock_noNested h this.ctrl_ b)
  refine ⟨h3, ?_, ?_, ?_, ?_⟩
  · simp [SharedPtr.assignCopy, SharedPtr.toBool_of_ne hp, hc, hco, e1, e2, e3]
  · rw [b3]; rfl
  · rw [f3 _ hd]; exact Heap.block_setCtrl_same h1 hco _
  · intro d hd1 hd2
    rw [f3 _ hd1, Heap.block_setCtrl_other h1 hd2, f1 _ hd1]

theorem SharedPtr.assignCopy_same_block {h : Heap} {this other : SharedPtr}
    {b : ControlBlock} (hp : other.ptr_ ≠ 0) (hb : h.block other.ctrl_ = some b)
    (hd : this.ctrl_ = other.ctrl_) (hs : 2 ≤ b.shared_counter_) :
    ∃ h', SharedPtr.assignCopy this other false h = .ok ⟨other.ptr_, other.ctrl_⟩ h' ∧
      h'.block other.ctrl_ = some b ∧ (∀ d, d ≠ other.ctrl_ → h'.block d = h.block d) := by
  have hc := Heap.ne_zero_of_block hb
  have hs1 : b.shared_counter_ ≠ 1 := by omega
  have e1 := DecreaseSharedCounter_more hb hs1
  have b1 := Heap.block_setCtrl_same h hc (some { b with shared_counter_ := b.shared_counter_ - 1 })
  have e2 := IncreaseSharedCounter_spec b1
  have hne : ¬ (b.shared_counter_ = 0) := by omega
  refine ⟨(h.setCtrl other.ctrl_ (some { b with shared_counter_ := b.shared_counter_ - 1 })).setCtrl
    other.ctrl_ (some { b with shared_counter_ := b.shared_counter_ - 1 + 1 }), ?_, ?_, ?_⟩
  · simp [SharedPtr.assignCopy, SharedPtr.toBool_of_ne hp, hd, hc, e1, e2, deleteIfUnused,
      GetSharedCounter, GetWeakCounter, Heap.block_setCtrl_same _ hc, hne]
  · rw [Heap.block_setCtrl_same _ hc]
    simp
  · intro d hdd
    rw [Heap.block_setCtrl_other _ hdd, Heap.block_setCtrl_other _ hdd]

theorem SharedPtr.assignCopy_empty {h : Heap} {this other : SharedPtr}
    {bo : ControlBlock} (hp : other.ptr_ ≠ 0) (ht : this.ctrl_ = 0)
    (hbo : h.block other.ctrl_ = some bo) :
    SharedPtr.assignCopy this other false h = .ok ⟨other.ptr_, other.ctrl_⟩
      (h.setCtrl other.ctrl_ (some { bo with shared_counter_ := bo.shared_counter_ + 1 })) := by
  have hco := Heap.ne_zero_of_block hbo
  simp [SharedPtr.assignCopy, SharedPtr.toBool_of_ne hp, ht, hco, IncreaseSharedCounter_spec hbo,
    deleteIfUnused]

theorem SharedPtr.assignMove_spec {h : Heap} {this : SharedPtr} (other : SharedPtr)
    {b : ControlBlock} (hp : other.ptr_ ≠ 0) (hb : h.block this.ctrl_ = some b)
    (hself : SelfHandleOk h this.ctrl_ b) :
    ∃ h', SharedPtr.assignMove this other false h =
        .ok (⟨other.ptr_, other.ctrl_⟩, ⟨0, 0⟩) h' ∧
      h'.block this.ctrl_ = releasedBlock h this.ctrl_ b ∧
      (∀ d, d ≠ this.ctrl_ → h'.block d = h.block d) := by
  have hc := Heap.ne_zero_of_block hb
  obtain ⟨h1, e1, b1, f1, n1⟩ := DecreaseSharedCounter_spec hb hself
  obtain ⟨h3, e3, b3, f3, _⟩ := deleteIfUnused_spec b1 (decreasedBlock_noNested h this.ctrl_ b)
  refine ⟨h3, ?_, ?_, ?_⟩
  · simp [SharedPtr.assignMove, SharedPtr.toBool_of_ne hp, hc, e1, e3]
  · rw [b3]; rfl
  · intro d hd1
    rw [f3 _ hd1, f1 _ hd1]

theorem SharedPtr.Reset_spec {h : Heap} {this : SharedPtr} {b : ControlBlock}
    (hb : h.block this.ctrl_ = some b) (hself : SelfHandleOk h this.ctrl_ b) :
    ∃ h', SharedPtr.Reset this h = .ok ⟨0, 0⟩ h' ∧
      h'.block this.ctrl_ = releasedBlock h this.ctrl_ b ∧
      (∀ d, d ≠ this.ctrl_ → h'.block d = h.block d) ∧ h'.next = h.next := by
  obtain ⟨t1, h1, e1, b1, f1, n1⟩ := SharedPtr.DeleteControl_spec hb hself
  exact ⟨h1, by simp [SharedPtr.Reset, e1], b1, f1, n1⟩

theorem SharedPtr.dtor_spec {h : Heap} {this : SharedPtr} {b : ControlBlock}
    (hb : h.block this.ctrl_ = some b) (hself : SelfHandleOk h this.ctrl_ b) :
    ∃ h', SharedPtr.dtor this h = .ok () h' ∧
      h'.block this.ctrl_ = releasedBlock h this.ctrl_ b ∧
      (∀ d, d ≠ this.ctrl_ → h'.block d = h.block d) ∧ h'.next = h.next := by
  obtain ⟨h1, e1, b1, f1, n1⟩ := SharedPtr.Reset_spec hb hself
  exact ⟨h1, by simp [SharedPtr.dtor, e1], b1, f1, n1⟩

theorem SharedPtr.ResetPtr_spec {h : Heap} {this : SharedPtr} {b : ControlBlock}
    (esft : Bool) (ptr : Addr)
    (hb : h.block this.ctrl_ = some b) (hself : SelfHandleOk h this.ctrl_ b)
    (hn : this.ctrl_ ≤ h.next) :
    ∃ h', SharedPtr.ResetPtr esft this ptr h = .ok ⟨ptr, h.next + 1⟩ h' ∧
      h'.block this.ctrl_ = releasedBlock h this.ctrl_ b ∧
      h'.block (h.next + 1) = some ⟨1, 0, Flavor.pointer, esft, ptr⟩ := by
  obtain ⟨t1, h1, e1, b1, f1, n1⟩ := SharedPtr.DeleteControl_spec hb hself
  have hne : this.ctrl_ ≠ h.next + 1 := Nat.ne_of_lt (Nat.lt_succ_of_le hn)
  refine ⟨(h1.alloc ⟨1, 0, Flavor.pointer, esft, ptr⟩).2, ?_, ?_, ?_⟩
  · simp [SharedPtr.ResetPtr, e1, Heap.alloc, n1]
  · rw [← b1]
    simp [Heap.alloc, Heap.block, n1, hne]
  · simp [Heap.alloc, Heap.block, n1]

/-- The shared counter of a released block, when the block stays allocated. -/
theorem releasedBlock_kept {h : Heap} {c : Addr} {b : ControlBlock}
    (_hs : 1 ≤ b.shared_counter_) (hw : 1 ≤ b.weak_counter_ - selfUnits h c b) :
    ∃ b', releasedBlock h c b = some b' ∧ b'.shared_counter_ = b.shared_counter_ - 1 := by
  have hs := _hs
  unfold releasedBlock decreasedBlock
  by_cases h1 : b.shared_counter_ = 1
  · have : ¬ (b.weak_counter_ - selfUnits h c b = 0) := by omega
    simp [h1, this]
  · have : ¬ (b.shared_counter_ - 1 = 0) := by omega
    simp [h1, this]

theorem WeakPtr.Expired_after_release {h h' : Heap} {w : WeakPtr} {b : ControlBlock}
    (hs : 1 ≤ b.shared_counter_) (hw : 1 ≤ b.weak_counter_ - selfUnits h w.ctrl_ b)
    (hb' : h'.block w.ctrl_ = releasedBlock h w.ctrl_ b) :
    w.Expired h' = some (decide (b.shared_counter_ = 1)) := by
  obtain ⟨b', e, s⟩ := releasedBlock_kept (h := h) (c := w.ctrl_) hs hw
  rw [e] at hb'
  rw [WeakPtr.Expired_of_block hb', s]
  congr 1
  simp only [decide_eq_decide]
  omega

/-! ## The claims -/

/-- C1, as the code behaves where it departs from the claim. A `SharedPtr` built from a raw
address (pointer flavour, pointee type without the self-observation capability) with one
`WeakPtr` alive: `Reset` on the shared pointer takes the shared counter from 1 to 0 and the
destructor of the pointee has not run; it runs later, when the release of the weak pointer
destroys the control block. The same program on the object flavour (`MakeShared`) destroys
the pointee during the `Reset` of the shared pointer. When the weak pointer is released
by assigning an empty `WeakPtr` to it, the block is left allocated with both counters 0 and
the destructor of the pointee never runs. -/
theorem C1_pointer_flavor_destroys_pointee_with_block :
    ((SharedPtr.ctorRaw false 10 (newObject 10 7 Heap.empty)).bind fun a h1 =>
      (WeakPtr.ctorShared a h1).bind fun w h2 =>
        (SharedPtr.Reset a h2).bind fun _ h3 =>
          (WeakPtr.Reset w h3).bind fun _ h4 =>
            .ok (GetSharedCounter 1 h2, GetSharedCounter 1 h3, (h3.objs 10).dtorCalls,
              (h4.block 1).isSome, (h4.objs 10).dtorCalls) h4).val?
      = some (some 1, some 0, 0, false, 1) ∧
    ((MakeShared false 7 Heap.empty).bind fun a h1 =>
      (WeakPtr.ctorShared a h1).bind fun w h2 =>
        (SharedPtr.Reset a h2).bind fun _ h3 =>
          (WeakPtr.Reset w h3).bind fun _ h4 =>
            .ok (GetSharedCounter 1 h2, GetSharedCounter 1 h3, (h3.objs a.ptr_).dtorCalls,
              (h4.block 1).isSome, (h4.objs a.ptr_).dtorCalls) h4).val?
      = some (some 1, some 0, 1, false, 1) ∧
    ((SharedPtr.ctorRaw false 10 (newObject 10 7 Heap.empty)).bind fun a h1 =>
      (WeakPtr.ctorShared a h1).bind fun w h2 =>
        (SharedPtr.Reset a h2).bind fun _ h3 =>
          (WeakPtr.assignCopy w WeakPtr.ctorDefault false h3).bind fun _ h4 =>
            .ok (GetSharedCounter 1 h4, GetWeakCounter 1 h4, (h4.objs 10).dtorCalls) h4).val?
      = some (some 0, some 0, 0) := by
  refine ⟨?_, ?_, ?_⟩ <;> rfl

/-- C2, as the code behaves where it departs from the claim. The program
`SharedPtr<T> a(static_cast<T*>(nullptr)); SharedPtr<T> b(a);` reaches a state in which two
live `SharedPtr` objects have control block `1` while its shared counter is 1: the copy
constructor tests `other` (the exposed address) instead of the control block and skips
the increment. -/
theorem C2_copy_of_null_address_handle_not_counted :
    ∃ m : Machine, m.Reachable ∧
      ∃ b, m.heap.block 1 = some b ∧ m.liveShared 1 = 2 ∧ b.shared_counter_ = 1 ∧
        ¬ m.CountsAgree 1 := by
  refine ⟨_, ⟨[Op.spRaw false 0, Op.spCopy 0], rfl⟩, ⟨1, 0, Flavor.pointer, false, 0⟩,
    rfl, rfl, rfl, ?_⟩
  intro hc
  have := (hc ⟨1, 0, Flavor.pointer, false, 0⟩ rfl).1
  revert this
  decide

/-- C3, as the code behaves where it departs from the claim. On every heap, `SharedPtr(p)`
with the null raw address `p` has `UseCount() == 1`, and copy-constructing a further
`SharedPtr` from it yields a second handle of the same block while `UseCount()`, seen
through either handle, is still 1. -/
theorem C3_copy_of_null_address_handle_keeps_use_count (h : Heap) :
    ((SharedPtr.ctorRaw false 0 h).bind fun a h1 =>
      (SharedPtr.ctorCopy a h1).bind fun b h2 =>
        .ok (a.UseCount h1, decide (b.ctrl_ = a.ctrl_), a.UseCount h2, b.UseCount h2) h2).val?
      = some (some 1, true, some 1, some 1) := by
  simp [SharedPtr.ctorRaw, SharedPtr.ctorCopy, SharedPtr.toBool, SharedPtr.UseCount,
    GetSharedCounter, Heap.alloc, Heap.block, toSizeT]

/-- Expiry follows the shared counter. Let `w` be a `WeakPtr` and `a` a `SharedPtr` on the
same allocated control block, whose shared counter is at least 1 and whose weak counter, the
unit of the pointee's own `weak_this_` apart, is at least 1. Then `w.Expired()` is false,
and after the destructor of `a`, after `a.Reset()`, after `a.Reset(p)` and after a copy or
move assignment to `a` from a non-empty pointer on another block, `w.Expired()` is true
exactly when the shared counter was 1. A default-constructed, a moved-from and a reset
`WeakPtr` are expired on every heap. Where the counter is the number of shared pointers on
the block, this is expiry exactly at the release of the last one; the copy constructor
breaks that equality for handles with a null address. -/
theorem WeakPtr.Expired_after_counted_release (h : Heap) (w : WeakPtr) (a : SharedPtr)
    (b : ControlBlock)
    (ha : a.ctrl_ = w.ctrl_) (hb : h.block w.ctrl_ = some b)
    (hs : 1 ≤ b.shared_counter_) (hw : 1 ≤ b.weak_counter_ - selfUnits h w.ctrl_ b)
    (hself : SelfHandleOk h w.ctrl_ b) :
    w.Expired h = some false ∧
    (∃ h', SharedPtr.dtor a h = .ok () h' ∧
      w.Expired h' = some (decide (b.shared_counter_ = 1))) ∧
    (∃ h', SharedPtr.Reset a h = .ok ⟨0, 0⟩ h' ∧
      w.Expired h' = some (decide (b.shared_counter_ = 1))) ∧
    (∀ (e : Bool) (p : Addr), w.ctrl_ ≤ h.next →
      ∃ a' h', SharedPtr.ResetPtr e a p h = .ok a' h' ∧
        w.Expired h' = some (decide (b.shared_counter_ = 1))) ∧
    (∀ (o : SharedPtr) (bo : ControlBlock), o.ptr_ ≠ 0 → o.ctrl_ ≠ w.ctrl_ →
      h.block o.ctrl_ = some bo →
      (∃ h', SharedPtr.assignCopy a o false h = .ok o h' ∧
        w.Expired h' = some (decide (b.shared_counter_ = 1))) ∧
      (∃ h', SharedPtr.assignMove a o false h = .ok (o, ⟨0, 0⟩) h' ∧
        w.Expired h' = some (decide (b.shared_counter_ = 1)))) ∧
    (∀ h2 : Heap, WeakPtr.ctorDefault.Expired h2 = some true) ∧
    (∀ (w2 : WeakPtr) (h2 : Heap), (WeakPtr.ctorMove w2).2.Expired h2 = some true) ∧
    (∃ h', WeakPtr.Reset w h = .ok ⟨0, 0⟩ h' ∧
      ∀ h2 : Heap, WeakPtr.Expired ⟨0, 0⟩ h2 = some true) := by
  have hb0 : h.block a.ctrl_ = some b := by rw [ha]; exact hb
  have hself0 : SelfHandleOk h a.ctrl_ b := by rw [ha]; exact hself
  have hne : b.shared_counter_ ≠ 0 := by omega
  refine ⟨(WeakPtr.Expired_false_iff w h).2 ⟨b, hb, hne⟩, ?_, ?_, ?_, ?_, ?_, ?_, ?_⟩
  · obtain ⟨h', e, bl, _, _⟩ := SharedPtr.dtor_spec hb0 hself0
    rw [ha] at bl
    exact ⟨h', e, WeakPtr.Expired_after_release hs hw bl⟩
  · obtain ⟨h', e, bl, _, _⟩ := SharedPtr.Reset_spec hb0 hself0
    rw [ha] at bl
    exact ⟨h', e, WeakPtr.Expired_after_release hs hw bl⟩
  · intro e p hn
    obtain ⟨h', e, bl, _⟩ := SharedPtr.ResetPtr_spec e p hb0 hself0 (by rw [ha]; exact hn)
    rw [ha] at bl
    exact ⟨_, h', e, WeakPtr.Expired_after_release hs hw bl⟩
  · intro o bo hp hd hbo
    constructor
    · obtain ⟨h', e, bl, _, _⟩ :=
        SharedPtr.assignCopy_other_block hp hb0 hself0 (by rw [ha]; exact hd) hbo
      rw [ha] at bl
      exact ⟨h', e, WeakPtr.Expired_after_release hs hw bl⟩
    · obtain ⟨h', e, bl, _⟩ := SharedPtr.assignMove_spec o hp hb0 hself0
      rw [ha] at bl
      exact ⟨h', e, WeakPtr.Expired_after_release hs hw bl⟩
  · intro h2; rfl
  · intro w2 h2; rfl
  · have hc := Heap.ne_zero_of_block hb
    refine ⟨h.setCtrl w.ctrl_ (some { b with weak_counter_ := b.weak_counter_ - 1 }), ?_,
      fun h2 => rfl⟩
    simp [WeakPtr.Reset, hc, DecreaseWeakCounter, hb, deleteIfUnused, GetSharedCounter,
      GetWeakCounter, Heap.block_setCtrl_same h hc, hne]

/-- On a block with one shared and one weak unit the weak pointer is not expired, and is
expired after the destructor of the only shared pointer. -/
theorem WeakPtr.Expired_after_counted_release_example :
    WeakPtr.Expired ⟨10, 1⟩ (Heap.single ⟨1, 1, Flavor.pointer, false, 10⟩) = some false ∧
    ∃ h', SharedPtr.dtor ⟨10, 1⟩ (Heap.single ⟨1, 1, Flavor.pointer, false, 10⟩) = .ok () h' ∧
      WeakPtr.Expired ⟨10, 1⟩ h' = some true := by
  have key := WeakPtr.Expired_after_counted_release
    (Heap.single ⟨1, 1, Flavor.pointer, false, 10⟩) ⟨10, 1⟩ ⟨10, 1⟩
    ⟨1, 1, Flavor.pointer, false, 10⟩ rfl rfl (by decide) (by decide)
    (by intro e; cases e)
  exact ⟨key.1, by simpa using key.2.1⟩

/-- C4, as the code behaves where it departs from the claim. After
`SharedPtr<T> a(static_cast<T*>(nullptr)); WeakPtr<T> w(a); SharedPtr<T> b(a);` two shared
pointers reference block 1, its shared counter is 1 (the copy of a handle with a null
address is not counted) and `w.Expired()` is false. After `b.Reset()` the pointer `a` is
still alive on block 1, the counter is 0 and `w.Expired()` is true: the weak pointer is
expired while a `SharedPtr` references the block, and the release of `b` was not the
release of the last one. The same happens on a block made by `MakeShared<T>(7)` with an
aliasing handle of null address and its copy: after the destructors of the first two
handles the copy is alive on the block, `w.Expired()` is true and the pointee has been
destroyed. -/
theorem C4_expired_while_shared_pointer_alive :
    (Machine.init.run [Op.spRaw false 0, Op.wpFromShared 0, Op.spCopy 0]).map
      (fun m => (m.sp 0, m.sp 1, m.liveShared 1, GetSharedCounter 1 m.heap,
        (m.wp 0).map fun w => w.Expired m.heap)) =
      some (some ⟨0, 1⟩, some ⟨0, 1⟩, 2, some 1, some (some false)) ∧
    (Machine.init.run [Op.spRaw false 0, Op.wpFromShared 0, Op.spCopy 0, Op.spReset 1]).map
      (fun m => (m.sp 0, m.sp 1, m.liveShared 1, GetSharedCounter 1 m.heap,
        (m.wp 0).map fun w => w.Expired m.heap)) =
      some (some ⟨0, 1⟩, some ⟨0, 0⟩, 1, some 0, some (some true)) ∧
    (Machine.init.run [Op.makeShared false 7, Op.wpFromShared 0, Op.spAlias false 0 0,
        Op.spCopy 1, Op.spDtor 0, Op.spDtor 1]).map
      (fun m => (m.sp 2, m.liveShared 1, GetSharedCounter 1 m.heap,
        (m.wp 0).map fun w => w.Expired m.heap, (m.heap.objs (inlineAddr 1)).dtorCalls)) =
      some (some ⟨0, 1⟩, 1, some 0, some (some true), 1) := by
  refine ⟨rfl, rfl, rfl⟩

/-- What `Lock` does. If `w` is expired, `w.Lock()` returns the empty `SharedPtr` (boolean
conversion false, `UseCount() == 0`), without a throw and on an unchanged heap. If the block
of `w` is allocated and its shared counter is positive, `w` is not expired and `w.Lock()`
returns a `SharedPtr` with the address and the control block of `w`; `UseCount()` is one
more than before, the weak counter is unchanged, and dereferencing gives what the address
held before the call. After `MakeShared<int>(v)` and the construction of a `WeakPtr` from
the result, `Lock` gives a pointer that dereferences to `v`. A negative counter, which is
not expired either, is not covered. -/
theorem WeakPtr.Lock_spec (w : WeakPtr) (h : Heap) :
    (w.Expired h = some true →
      WeakPtr.Lock w h = .ok SharedPtr.ctorDefault h ∧
      SharedPtr.ctorDefault.toBool = false ∧ SharedPtr.ctorDefault.UseCount h = some 0) ∧
    (∀ b, h.block w.ctrl_ = some b → 0 < b.shared_counter_ →
      w.Expired h = some false ∧
      ∃ h', WeakPtr.Lock w h = .ok ⟨w.ptr_, w.ctrl_⟩ h' ∧
        w.UseCount h = some (toSizeT b.shared_counter_) ∧
        w.UseCount h' = some (toSizeT b.shared_counter_ + 1) ∧
        SharedPtr.UseCount ⟨w.ptr_, w.ctrl_⟩ h' = some (toSizeT b.shared_counter_ + 1) ∧
        GetWeakCounter w.ctrl_ h' = some b.weak_counter_ ∧
        SharedPtr.deref ⟨w.ptr_, w.ctrl_⟩ h' = SharedPtr.deref ⟨w.ptr_, w.ctrl_⟩ h) ∧
    (∀ (esft : Bool) (v : Int) (h0 : Heap),
      ((MakeShared esft v h0).bind fun sp h1 =>
        (WeakPtr.ctorShared sp h1).bind fun wp h2 =>
          (WeakPtr.Lock wp h2).bind fun sp2 h3 =>
            .ok (wp.Expired h2, sp2.deref h3, sp2.UseCount h3) h3).val?
        = some (some false, some v, some 2)) := by
  refine ⟨?_, ?_, makeShared_lock_example⟩
  · intro he
    simp [WeakPtr.Lock, he, SharedPtr.ctorDefault, SharedPtr.toBool, SharedPtr.UseCount]
  · intro b hb hs
    have hc := Heap.ne_zero_of_block hb
    have hne : b.shared_counter_ ≠ 0 := by omega
    have he : w.Expired h = some false := (WeakPtr.Expired_false_iff w h).2 ⟨b, hb, hne⟩
    refine ⟨he, h.setCtrl w.ctrl_ (some { b with shared_counter_ := b.shared_counter_ + 1 }),
      ?_, ?_, ?_, ?_, ?_, ?_⟩
    · simp only [WeakPtr.Lock, he]
      exact SharedPtr.ctorWeak_of_block hb hne
    · simp [WeakPtr.UseCount, hc, GetSharedCounter, hb]
    · simp [WeakPtr.UseCount, hc, GetSharedCounter, Heap.block_setCtrl_same h hc]
      exact toSizeT_succ (le_of_lt hs)
    · simp [SharedPtr.UseCount, hc, GetSharedCounter, Heap.block_setCtrl_same h hc]
      exact toSizeT_succ (le_of_lt hs)
    · simp [GetWeakCounter, Heap.block_setCtrl_same h hc]
    · rfl

/-- On a block with shared counter 1 `Lock` succeeds and `UseCount()` goes from 1 to 2. -/
theorem WeakPtr.Lock_spec_example :
    ∃ h', WeakPtr.Lock ⟨10, 1⟩ (Heap.single ⟨1, 1, Flavor.pointer, false, 10⟩) =
        .ok ⟨10, 1⟩ h' ∧
      WeakPtr.UseCount ⟨10, 1⟩ (Heap.single ⟨1, 1, Flavor.pointer, false, 10⟩) = some 1 ∧
      SharedPtr.UseCount ⟨10, 1⟩ h' = some 2 := by
  obtain ⟨_, h', e1, e2, _, e3, _⟩ :=
    (WeakPtr.Lock_spec ⟨10, 1⟩ (Heap.single ⟨1, 1, Flavor.pointer, false, 10⟩)).2.1
      ⟨1, 1, Flavor.pointer, false, 10⟩ rfl (by decide)
  exact ⟨h', e1, by simpa [toSizeT] using e2, by simpa [toSizeT] using e3⟩

/-- C6. The promotion `SharedPtr(const WeakPtr&)` throws `BadWeakPtr` if and only if the
weak pointer is expired; when it throws, the heap at the throw is the heap before the call
(no counter has changed; the weak pointer is passed by const reference and is the same
value); when the block of `w` is allocated with a non-zero shared counter, the call
returns a pointer with the address and control block of `w`, the shared counter is one
higher, and the weak counter, the other blocks and the pointees are unchanged.
`SharedFromThis` is this constructor, applied to the `weak_this_` of the pointee. -/
theorem C6_promote_throws_iff_expired (w : WeakPtr) (h : Heap) :
    ((∃ h', SharedPtr.ctorWeak w h = .badWeakPtr h') ↔ w.Expired h = some true) ∧
    (∀ h', SharedPtr.ctorWeak w h = .badWeakPtr h' → h' = h) ∧
    (∀ b, h.block w.ctrl_ = some b → b.shared_counter_ ≠ 0 →
      w.Expired h = some false ∧
      ∃ h', SharedPtr.ctorWeak w h = .ok ⟨w.ptr_, w.ctrl_⟩ h' ∧
        h'.block w.ctrl_ = some { b with shared_counter_ := b.shared_counter_ + 1 } ∧
        GetSharedCounter w.ctrl_ h' = some (b.shared_counter_ + 1) ∧
        GetWeakCounter w.ctrl_ h' = some b.weak_counter_ ∧
        (∀ d, d ≠ w.ctrl_ → h'.block d = h.block d) ∧ h'.objs = h.objs) ∧
    (∀ a : Addr, SharedFromThis a h = SharedPtr.ctorWeak (h.objs a).weak_this_ h) := by
  refine ⟨?_, ?_, ?_, fun _ => rfl⟩
  · constructor
    · rintro ⟨h', hh⟩
      cases he : w.Expired h with
      | none => simp [SharedPtr.ctorWeak, he] at hh
      | some e =>
        cases e with
        | true => rfl
        | false =>
          obtain ⟨b, hb, hs⟩ := (WeakPtr.Expired_false_iff w h).1 he
          rw [SharedPtr.ctorWeak_of_block hb hs] at hh
          cases hh
    · intro he
      exact ⟨h, SharedPtr.ctorWeak_expired he⟩
  · intro h' hh
    cases he : w.Expired h with
    | none => simp [SharedPtr.ctorWeak, he] at hh
    | some e =>
      cases e with
      | true =>
        rw [SharedPtr.ctorWeak_expired he] at hh
        cases hh
        rfl
      | false =>
        obtain ⟨b, hb, hs⟩ := (WeakPtr.Expired_false_iff w h).1 he
        rw [SharedPtr.ctorWeak_of_block hb hs] at hh
        cases hh
  · intro b hb hs
    have hc := Heap.ne_zero_of_block hb
    refine ⟨(WeakPtr.Expired_false_iff w h).2 ⟨b, hb, hs⟩, _, SharedPtr.ctorWeak_of_block hb hs, ?_, ?_, ?_, ?_, ?_⟩
    · exact Heap.block_setCtrl_same h hc _
    · simp [GetSharedCounter, Heap.block_setCtrl_same h hc]
    · simp [GetWeakCounter, Heap.block_setCtrl_same h hc]
    · intro d hd
      exact Heap.block_setCtrl_other h hd _
    · rfl

/-- C6 at a block with shared counter 1 and at one with shared counter 0: the first
promotion returns and raises the counter to 2, the second throws on an unchanged heap. -/
theorem C6_promote_throws_iff_expired_witness :
    (∃ h', SharedPtr.ctorWeak ⟨10, 1⟩ (Heap.single ⟨1, 1, Flavor.pointer, false, 10⟩) =
        .ok ⟨10, 1⟩ h' ∧ GetSharedCounter 1 h' = some 2) ∧
    ∃ h', SharedPtr.ctorWeak ⟨10, 1⟩ (Heap.single ⟨0, 1, Flavor.pointer, false, 10⟩) =
        .badWeakPtr h' := by
  constructor
  · obtain ⟨_, h', e1, _, e2, _⟩ :=
      (C6_promote_throws_iff_expired ⟨10, 1⟩
        (Heap.single ⟨1, 1, Flavor.pointer, false, 10⟩)).2.2.1
        ⟨1, 1, Flavor.pointer, false, 10⟩ rfl (by decide)
    exact ⟨h', e1, by simpa using e2⟩
  · exact (C6_promote_throws_iff_expired ⟨10, 1⟩
      (Heap.single ⟨0, 1, Flavor.pointer, false, 10⟩)).1.2 rfl

/-- C7 fails as stated. With `b` empty, the copy assignment `a = b` leaves `a` as it was:
`a.Get()` is still `10`, not `b.Get()`, and the shared counter of the old block is still 1.
With `a` and `b` on the same block, the shared counter of that block is 2 before and after:
it is neither one lower nor one higher. -/
theorem C7_copy_assign_from_empty_or_same_block_counterexample :
    (SharedPtr.assignCopy ⟨10, 1⟩ SharedPtr.ctorDefault false
        (Heap.single ⟨1, 0, Flavor.pointer, false, 10⟩)).val? = some ⟨10, 1⟩ ∧
    SharedPtr.Get ⟨10, 1⟩ ≠ SharedPtr.ctorDefault.Get ∧
    ((SharedPtr.assignCopy ⟨10, 1⟩ SharedPtr.ctorDefault false
        (Heap.single ⟨1, 0, Flavor.pointer, false, 10⟩)).heap?.bind
          (fun h => GetSharedCounter 1 h)) = some 1 ∧
    ((SharedPtr.assignCopy ⟨10, 1⟩ ⟨10, 1⟩ false
        (Heap.single ⟨2, 0, Flavor.pointer, false, 10⟩)).heap?.bind
          (fun h => GetSharedCounter 1 h)) = some 2 := by
  decide

/-- C7, amended. Let `a` and `b` be distinct `SharedPtr` objects, `b` non-empty
(`b.Get()` not null) on an allocated block. After `a = b`, `a.Get() == b.Get()` and
`a == b`. If `a` was empty, the shared counter of the block of `b` is one higher. If `a`
was on another allocated block, the shared counter of the block of `b` is one higher, and
the old block is freed when its shared counter was 1 and its weak counter is 0 once the
pointee has given back the unit of its own `weak_this_`; otherwise the old block stays
with a shared counter one lower. If `a` was on the block of `b` already, the shared
counter of that block is unchanged. -/
theorem C7_copy_assign_from_non_empty (h : Heap) (a b : SharedPtr) (bb : ControlBlock)
    (hp : b.ptr_ ≠ 0) (hbb : h.block b.ctrl_ = some bb) :
    (a.ctrl_ = 0 →
      ∃ a' h', SharedPtr.assignCopy a b false h = .ok a' h' ∧
        a'.Get = b.Get ∧ SharedPtr.eq a' b = true ∧
        GetSharedCounter b.ctrl_ h' = some (bb.shared_counter_ + 1)) ∧
    (∀ ba, h.block a.ctrl_ = some ba → a.ctrl_ ≠ b.ctrl_ → SelfHandleOk h a.ctrl_ ba →
      ∃ a' h', SharedPtr.assignCopy a b false h = .ok a' h' ∧
        a'.Get = b.Get ∧ SharedPtr.eq a' b = true ∧
        GetSharedCounter b.ctrl_ h' = some (bb.shared_counter_ + 1) ∧
        (ba.shared_counter_ = 1 ∧ ba.weak_counter_ - selfUnits h a.ctrl_ ba = 0 →
          h'.block a.ctrl_ = none) ∧
        (¬ (ba.shared_counter_ = 1 ∧ ba.weak_counter_ - selfUnits h a.ctrl_ ba = 0) →
          GetSharedCounter a.ctrl_ h' = some (ba.shared_counter_ - 1))) ∧
    (a.ctrl_ = b.ctrl_ → 2 ≤ bb.shared_counter_ →
      ∃ a' h', SharedPtr.assignCopy a b false h = .ok a' h' ∧
        a'.Get = b.Get ∧ SharedPtr.eq a' b = true ∧
        GetSharedCounter b.ctrl_ h' = some bb.shared_counter_) := by
  have hco := Heap.ne_zero_of_block hbb
  refine ⟨?_, ?_, ?_⟩
  · intro ha
    refine ⟨_, _, SharedPtr.assignCopy_empty hp ha hbb, rfl, by simp [SharedPtr.eq], ?_⟩
    simp [GetSharedCounter, Heap.block_setCtrl_same h hco]
  · intro ba hba hd hself
    obtain ⟨h', e, bl, bo, _⟩ := SharedPtr.assignCopy_other_block hp hba hself (Ne.symm hd) hbb
    refine ⟨_, h', e, rfl, by simp [SharedPtr.eq], by simp [GetSharedCounter, bo], ?_, ?_⟩
    · intro hz
      rw [bl]
      simp [releasedBlock, decreasedBlock, hz.1, hz.2]
    · intro hz
      rw [GetSharedCounter, bl]
      unfold releasedBlock decreasedBlock
      by_cases h1 : ba.shared_counter_ = 1
      · have h2 : ¬ (ba.weak_counter_ - selfUnits h a.ctrl_ ba = 0) := fun e => hz ⟨h1, e⟩
        simp [h1, h2]
      · have h2 : ¬ (ba.shared_counter_ - 1 = 0) := by omega
        simp [h1, h2]
  · intro hd hs
    obtain ⟨h', e, bl, _⟩ := SharedPtr.assignCopy_same_block hp hbb hd hs
    exact ⟨_, h', e, rfl, by simp [SharedPtr.eq], by simp [GetSharedCounter, bl]⟩

/-- C7, amended, at two blocks with one shared unit each: after `a = b` the pointer `a`
holds the address of `b`, the block of `b` has shared counter 2 and the old block of `a`
is freed. -/
theorem C7_copy_assign_from_non_empty_witness :
    ∃ a' h', SharedPtr.assignCopy ⟨10, 1⟩ ⟨20, 2⟩ false
        (Heap.pair ⟨1, 0, Flavor.pointer, false, 10⟩ ⟨1, 0, Flavor.pointer, false, 20⟩) =
          .ok a' h' ∧
      a'.Get = 20 ∧ GetSharedCounter 2 h' = some 2 ∧ h'.block 1 = none := by
  obtain ⟨a', h', e1, e2, _, e3, e4, _⟩ :=
    (C7_copy_assign_from_non_empty
      (Heap.pair ⟨1, 0, Flavor.pointer, false, 10⟩ ⟨1, 0, Flavor.pointer, false, 20⟩)
      ⟨10, 1⟩ ⟨20, 2⟩ ⟨1, 0, Flavor.pointer, false, 20⟩ (by decide) rfl).2.1
      ⟨1, 0, Flavor.pointer, false, 10⟩ rfl (by decide) (by intro e; cases e)
  exact ⟨a', h', e1, e2, by simpa using e3, e4 ⟨rfl, by decide⟩⟩

/-- C8 fails as stated. A `UniquePtr` holding address `5` is moved into another; after both
are destroyed the deleter has been called twice, not once: on `5` by the destination and
on the null address by the moved-from source. -/
theorem C8_move_then_destroy_two_calls_counterexample :
    ((UniquePtr.ctorMove (UniquePtr.ctor false 5 (Deleter.custom 0))).2.dtor
      ((UniquePtr.ctorMove (UniquePtr.ctor false 5 (Deleter.custom 0))).1.dtor [])) =
      [⟨Deleter.custom 0, false, 5, 5⟩, ⟨Deleter.custom 0, false, 0, 0⟩] ∧
    ¬ ((UniquePtr.ctorMove (UniquePtr.ctor false 5 (Deleter.custom 0))).2.dtor
      ((UniquePtr.ctorMove (UniquePtr.ctor false 5 (Deleter.custom 0))).1.dtor [])).length = 1 := by
  decide

/-- C8, amended. After move-constructing `dst` from `src`: `src` is empty (boolean
conversion false, `Get()` null), `dst.Get()` is the address `src` held, and after both are
destroyed, in either order, the deleter has been called exactly twice: once on that
address by `dst` and once on the null address by `src`. -/
theorem C8_move_then_destroy (src : UniquePtr) (log : List Invocation) :
    (UniquePtr.ctorMove src).2.toBool = false ∧
    (UniquePtr.ctorMove src).2.Get = 0 ∧
    (UniquePtr.ctorMove src).1.Get = src.Get ∧
    (UniquePtr.ctorMove src).2.dtor ((UniquePtr.ctorMove src).1.dtor log) =
      log ++ [⟨src.GetDeleter, src.array && decide (src.GetDeleter = Deleter.slug),
                src.Get, src.Get⟩,
              ⟨src.GetDeleter, src.array && decide (src.GetDeleter = Deleter.slug), 0, 0⟩] ∧
    (UniquePtr.ctorMove src).1.dtor ((UniquePtr.ctorMove src).2.dtor log) =
      log ++ [⟨src.GetDeleter, src.array && decide (src.GetDeleter = Deleter.slug), 0, 0⟩,
              ⟨src.GetDeleter, src.array && decide (src.GetDeleter = Deleter.slug),
                src.Get, src.Get⟩] := by
  unfold UniquePtr.ctorMove UniquePtr.Release UniquePtr.dtor UniquePtr.DeletePointer
    UniquePtr.invokeDeleter UniquePtr.toBool
  unfold UniquePtr.GetDeleter UniquePtr.Get CompressedPair.GetFirst CompressedPair.GetSecond
  cases hA : src.array <;> by_cases hS : src.ptr_.second_ = Deleter.slug <;> simp [hS]

/-- C9. For every `UniquePtr`, of the single-object and of the array form, and every held
address, null included, the destructor appends exactly one deleter call to the log, made
on the held address; no test of the address guards the call. In the array form with the
default deleter `Slug` the call is the two-argument array form. -/
theorem C9_destructor_calls_deleter_once (u : UniquePtr) (log : List Invocation) :
    u.dtor log =
      log ++ [⟨u.GetDeleter, u.array && decide (u.GetDeleter = Deleter.slug), u.Get, u.Get⟩] := by
  unfold UniquePtr.dtor UniquePtr.DeletePointer UniquePtr.invokeDeleter
  unfold UniquePtr.GetDeleter UniquePtr.Get
  cases hA : u.array <;> by_cases hS : u.ptr_.GetSecond = Deleter.slug <;> simp [hS]

/-- C10. After `u.Reset(p)`, `u.Get() == p` and the deleter object is the one `u` had. If
the address held before is not null, exactly one deleter call is appended to the log, on
that address, and during the call `u.Get()` already returns `p`; if it is null, no call is
made. `Reset()` is `Reset(p)` with `p` null. -/
theorem C10_reset (u : UniquePtr) (p : Addr) (log : List Invocation) :
    (u.Reset p log).1.Get = p ∧
    (u.Reset p log).1.GetDeleter = u.GetDeleter ∧
    (u.Reset p log).2 =
      if u.Get ≠ 0 then
        log ++ [⟨u.GetDeleter, u.array && decide (u.GetDeleter = Deleter.slug), u.Get, p⟩]
      else log := by
  unfold UniquePtr.Reset UniquePtr.invokeDeleter
  unfold UniquePtr.GetDeleter UniquePtr.Get CompressedPair.GetFirst CompressedPair.GetSecond
  by_cases h0 : u.ptr_.first_ = 0
  · simp [h0]
  · cases hA : u.array <;> by_cases hS : u.ptr_.second_ = Deleter.slug <;> simp [h0, hS]

/-! ## Further lemmas: releases through `WeakPtr`, destructor bodies -/

theorem releasedBlock_none_iff (h : Heap) (c : Addr) (b : ControlBlock) :
    releasedBlock h c b = none ↔
      (decreasedBlock h c b).shared_counter_ = 0 ∧ (decreasedBlock h c b).weak_counter_ = 0 := by
  unfold releasedBlock
  by_cases hz : (decreasedBlock h c b).shared_counter_ = 0 ∧
      (decreasedBlock h c b).weak_counter_ = 0
  · simp [hz]
  · simp [hz]

theorem DecreaseWeakCounter_spec {h : Heap} {c : Addr} {b : ControlBlock}
    (hb : h.block c = some b) :
    DecreaseWeakCounter c h =
      .ok () (h.setCtrl c (some { b with weak_counter_ := b.weak_counter_ - 1 })) := by
  simp [DecreaseWeakCounter, hb]

theorem WeakPtr.dtor_weak_spec {h : Heap} {w : WeakPtr} {b : ControlBlock}
    (hb : h.block w.ctrl_ = some b)
    (hn : b.shared_counter_ = 0 → b.flavor = Flavor.pointer → b.esft = true → b.obj_ = 0) :
    ∃ h', WeakPtr.dtor w h = .ok () h' ∧
      h'.block w.ctrl_ =
        (if b.shared_counter_ = 0 ∧ b.weak_counter_ - 1 = 0 then none
          else some { b with weak_counter_ := b.weak_counter_ - 1 }) ∧
      (∀ d, d ≠ w.ctrl_ → h'.block d = h.block d) := by
  have hc := Heap.ne_zero_of_block hb
  have b1 := Heap.block_setCtrl_same h hc (some { b with weak_counter_ := b.weak_counter_ - 1 })
  have g1 : GetSharedCounter w.ctrl_
      (h.setCtrl w.ctrl_ (some { b with weak_counter_ := b.weak_counter_ - 1 })) =
      some b.shared_counter_ := by simp [GetSharedCounter, b1]
  have g2 : GetWeakCounter w.ctrl_
      (h.setCtrl w.ctrl_ (some { b with weak_counter_ := b.weak_counter_ - 1 })) =
      some (b.weak_counter_ - 1) := by simp [GetWeakCounter, b1]
  have e0 : WeakPtr.dtor w h =
      if b.shared_counter_ = 0 ∧ b.weak_counter_ - 1 = 0 then
        deleteCtrl w.ctrl_ (h.setCtrl w.ctrl_ (some { b with weak_counter_ := b.weak_counter_ - 1 }))
      else .ok () (h.setCtrl w.ctrl_ (some { b with weak_counter_ := b.weak_counter_ - 1 })) := by
    simp only [WeakPtr.dtor, WeakPtr.dtorWith, ne_eq, hc, not_false_eq_true, if_true,
      DecreaseWeakCounter_spec hb, Outcome.bind_ok, g1, g2]
  by_cases hz : b.shared_counter_ = 0 ∧ b.weak_counter_ - 1 = 0
  · obtain ⟨h2, e2, b2, f2, _⟩ := deleteCtrl_spec b1 (hn hz.1)
    refine ⟨h2, ?_, by simpa [hz] using b2, ?_⟩
    · rw [e0, if_pos hz, e2]
    · intro d hd
      rw [f2 d hd, Heap.block_setCtrl_other h hd]
  · refine ⟨_, ?_, by simpa [hz] using b1, fun d hd => Heap.block_setCtrl_other h hd _⟩
    rw [e0, if_neg hz]

theorem WeakPtr.Reset_weak_spec {h : Heap} {w : WeakPtr} {b : ControlBlock}
    (hb : h.block w.ctrl_ = some b)
    (hn : b.shared_counter_ = 0 → b.flavor = Flavor.pointer → b.esft = true → b.obj_ = 0) :
    ∃ h', WeakPtr.Reset w h = .ok ⟨0, 0⟩ h' ∧
      h'.block w.ctrl_ =
        (if b.shared_counter_ = 0 ∧ b.weak_counter_ - 1 = 0 then none
          else some { b with weak_counter_ := b.weak_counter_ - 1 }) ∧
      (∀ d, d ≠ w.ctrl_ → h'.block d = h.block d) := by
  have hc := Heap.ne_zero_of_block hb
  have b1 := Heap.block_setCtrl_same h hc (some { b with weak_counter_ := b.weak_counter_ - 1 })
  obtain ⟨h2, e2, b2, f2, _⟩ := deleteIfUnused_spec b1 hn
  refine ⟨h2, ?_, b2, ?_⟩
  · simp [WeakPtr.Reset, hc, DecreaseWeakCounter, hb, e2]
  · intro d hd
    rw [f2 d hd, Heap.block_setCtrl_other h hd]

theorem WeakPtr.assignMove_weak_spec {h : Heap} {w : WeakPtr} (other : WeakPtr) {b : ControlBlock}
    (hb : h.block w.ctrl_ = some b)
    (hn : b.shared_counter_ = 0 → b.flavor = Flavor.pointer → b.esft = true → b.obj_ = 0) :
    ∃ h', WeakPtr.assignMove w other false h = .ok (⟨other.ptr_, other.ctrl_⟩, ⟨0, 0⟩) h' ∧
      h'.block w.ctrl_ =
        (if b.shared_counter_ = 0 ∧ b.weak_counter_ - 1 = 0 then none
          else some { b with weak_counter_ := b.weak_counter_ - 1 }) ∧
      (∀ d, d ≠ w.ctrl_ → h'.block d = h.block d) := by
  have hc := Heap.ne_zero_of_block hb
  have b1 := Heap.block_setCtrl_same h hc (some { b with weak_counter_ := b.weak_counter_ - 1 })
  obtain ⟨h2, e2, b2, f2, _⟩ := deleteIfUnused_spec b1 hn
  refine ⟨h2, ?_, b2, ?_⟩
  · simp [WeakPtr.assignMove, hc, DecreaseWeakCounter, hb, e2]
  · intro d hd
    rw [f2 d hd, Heap.block_setCtrl_other h hd]

theorem destroyPointee_keeps_block {h : Heap} {c a : Addr} {b : ControlBlock}
    (hb : h.block c = some b) (hs : b.shared_counter_ ≠ 0)
    (hw : (h.objs a).weak_this_.ctrl_ = c) :
    ∃ h', destroyPointee true a h = .ok () h' ∧
      h'.block c = some { b with weak_counter_ := b.weak_counter_ - 1 } ∧
      (h'.objs a).dtorCalls = (h.objs a).dtorCalls + 1 := by
  have hc := Heap.ne_zero_of_block hb
  have hb' := hb
  rw [Heap.block_of_ne_zero h hc] at hb'
  simp [destroyPointee, destroyPointeeWith, WeakPtr.dtorWith, hw, hc, DecreaseWeakCounter,
    GetSharedCounter, GetWeakCounter, Heap.block, Heap.setCtrl, Heap.setObj, hb', hs]

theorem SharedPtr.ctorAlias_plain {h : Heap} {other : SharedPtr} {b : ControlBlock} (p : Addr)
    (hb : h.block other.ctrl_ = some b) :
    SharedPtr.ctorAlias false other p h = .ok ⟨p, other.ctrl_⟩
      (h.setCtrl other.ctrl_ (some { b with shared_counter_ := b.shared_counter_ + 1 })) := by
  have hc := Heap.ne_zero_of_block hb
  simp [SharedPtr.ctorAlias, SharedPtr.GetControl, hc, IncreaseSharedCounter_spec hb]

/-! ## The claims, continued -/

/-- C11, as the code behaves where it departs from the claim. One pointee at `10`, a pointer
`p0` built from the raw address, a cross-type copy `p1` and a same-type copy `p2` of it
(counter 3, three live pointers); then the cross-type move assignment `p1 = std::move(p0)`.
Afterwards two live pointers (`p1`, `p2`) have the address `10` and the counter is 1: the
operator decrements once because the two addresses are equal and once more for the old
address. With two pointers only, the same assignment leaves `p1` holding the address of a
pointee that has been destroyed. -/
theorem C11_cross_type_move_assign_decrements_twice :
    (∃ m : RcMachine, m.Reachable ∧ m.heap.count 10 = some 1 ∧ m.live 10 = 2 ∧
      ¬ m.CountsAgree) ∧
    (RcMachine.init.run [RcOp.newObject 10, RcOp.ctorRaw 10, RcOp.copyCross true 0,
      RcOp.assignMoveCross true 1 0]).map
        (fun m => (m.ptr 1, m.heap.count 10, m.heap.destroyed 10)) =
      some (some ⟨10⟩, none, 1) := by
  refine ⟨⟨_, ⟨[RcOp.newObject 10, RcOp.ctorRaw 10, RcOp.copyCross true 0, RcOp.copy 0,
    RcOp.assignMoveCross true 1 0], rfl⟩, rfl, rfl, ?_⟩, rfl⟩
  intro hc
  have := hc 10 1 (by decide) rfl
  revert this
  decide

/-- C12, as the code behaves where it departs from the claim. For every non-null source
address and every memory, the cross-type copy constructor with a failing downcast calls
`IncRef` through the null result of the cast: undefined behaviour, no pointer is returned.
The cross-type move constructor completes with a null address and an emptied source. -/
theorem C12_cross_type_copy_dereferences_failed_cast (a : Nat) (h : RcHeap) :
    IntrusivePtr.ctorCopyCross false ⟨a + 1⟩ h = none ∧
    IntrusivePtr.ctorMoveCross false ⟨a + 1⟩ = (⟨0⟩, ⟨0⟩) ∧
    (IntrusivePtr.ctorMoveCross false ⟨a + 1⟩).1.Get = 0 ∧
    (IntrusivePtr.ctorMoveCross false ⟨a + 1⟩).1.UseCount h = some 0 ∧
    (IntrusivePtr.ctorMoveCross false ⟨a + 1⟩).1.toBool = false := by
  refine ⟨?_, rfl, rfl, rfl, rfl⟩
  simp [IntrusivePtr.ctorCopyCross, dynamicCast, RefCounted.IncRef, RefCounted.RefCount]

/-- C14, as the code behaves where it departs from the claim. The same operations (build,
make a `WeakPtr` from the handle, `Reset` the handle) on a handle from
`SharedPtr<T>(new T(7))` and on one from `MakeShared<T>(7)`, for a type without the
self-observation capability: boolean conversion, `UseCount()` and `Expired()` agree, but
afterwards the pointee of the first is alive (no destructor run) and the pointee of the
second is destroyed. -/
theorem C14_raw_and_make_shared_differ_in_pointee_state :
    (Machine.init.run [Op.newObject 10 7, Op.spRaw false 10, Op.wpFromShared 0,
        Op.spReset 0]).map
      (fun m => ((m.sp 0).map fun s => (s.toBool, s.UseCount m.heap),
        (m.wp 0).map fun w => (w.Expired m.heap, w.UseCount m.heap),
        (m.heap.objs 10).dtorCalls)) =
      some (some (false, some 0), some (some true, some 0), 0) ∧
    (Machine.init.run [Op.makeShared false 7, Op.wpFromShared 0, Op.spReset 0]).map
      (fun m => ((m.sp 0).map fun s => (s.toBool, s.UseCount m.heap),
        (m.wp 0).map fun w => (w.Expired m.heap, w.UseCount m.heap),
        (m.heap.objs (inlineAddr 1)).dtorCalls)) =
      some (some (false, some 0), some (some true, some 0), 1) := by
  constructor <;> rfl

/-- C15, as the code behaves where it departs from the claim. After
`auto a = MakeShared<T>(7); WeakPtr<T> w(a); a.Reset(); WeakPtr<T> e; w = e;` the control
block is still allocated, both its counters are 0 and no live pointer refers to it: the
copy assignment of `WeakPtr` gives the last unit back and does not delete the block. -/
theorem C15_weak_copy_assign_leaves_dead_block_allocated :
    ∃ m : Machine, m.Reachable ∧
      m.heap.block 1 = some ⟨0, 0, Flavor.object, false, inlineAddr 1⟩ ∧
      m.liveShared 1 = 0 ∧ m.liveWeak 1 = 0 := by
  refine ⟨_, ⟨[Op.makeShared false 7, Op.wpFromShared 0, Op.spReset 0, Op.wpDefault,
    Op.wpAssignCopy 0 1], rfl⟩, rfl, rfl, rfl⟩

/-- C16. Let block `c` be allocated, the self handle of its pointee empty or on `c`, and
the owned address already null if `c` is a zombie pointer-flavour block of a capability
type. (1) The destructor, `Reset`, move assignment and copy assignment of a `SharedPtr` on
`c` first run `DecreaseSharedCounter`; if `c` is deallocated by the operation, both
counters of `c` were 0 right after that call, and no other block is deallocated.
(2) The destructor, `Reset` and move assignment of a `WeakPtr` on `c` deallocate `c` only
if the shared counter is 0 and the weak counter is 0 after their decrement, and no other
block. (3) Releasing the last `SharedPtr` while a weak pointer other than the pointee's own
is alive leaves `c` allocated, with shared counter 0. (4) A pointee destructor that runs
while the shared counter of `c` is non-zero, as it is around the destructor call,
destroys the `weak_this_` on `c` and leaves `c` allocated. -/
theorem C16_deallocation_only_at_zero (h : Heap) (c : Addr) (b : ControlBlock)
    (hb : h.block c = some b) (hself : SelfHandleOk h c b)
    (hn : b.shared_counter_ = 0 → b.flavor = Flavor.pointer → b.esft = true → b.obj_ = 0) :
    (∃ h1 b1, DecreaseSharedCounter c 1 h = .ok () h1 ∧ h1.block c = some b1 ∧
      (∀ p : Addr, ∃ h', SharedPtr.dtor ⟨p, c⟩ h = .ok () h' ∧
        (h'.block c = none → b1.shared_counter_ = 0 ∧ b1.weak_counter_ = 0) ∧
        (∀ d, d ≠ c → h'.block d = h.block d)) ∧
      (∀ p : Addr, ∃ h', SharedPtr.Reset ⟨p, c⟩ h = .ok ⟨0, 0⟩ h' ∧
        (h'.block c = none → b1.shared_counter_ = 0 ∧ b1.weak_counter_ = 0) ∧
        (∀ d, d ≠ c → h'.block d = h.block d)) ∧
      (∀ (p : Addr) (o : SharedPtr), o.ptr_ ≠ 0 →
        ∃ h', SharedPtr.assignMove ⟨p, c⟩ o false h = .ok (o, ⟨0, 0⟩) h' ∧
          (h'.block c = none → b1.shared_counter_ = 0 ∧ b1.weak_counter_ = 0) ∧
          (∀ d, d ≠ c → h'.block d = h.block d)) ∧
      (∀ (p : Addr) (o : SharedPtr) (bo : ControlBlock), o.ptr_ ≠ 0 → o.ctrl_ ≠ c →
        h.block o.ctrl_ = some bo →
        ∃ h', SharedPtr.assignCopy ⟨p, c⟩ o false h = .ok o h' ∧
          (h'.block c = none → b1.shared_counter_ = 0 ∧ b1.weak_counter_ = 0) ∧
          (∃ bo', h'.block o.ctrl_ = some bo') ∧
          (∀ d, d ≠ c → d ≠ o.ctrl_ → h'.block d = h.block d))) ∧
    ((∀ p : Addr, ∃ h', WeakPtr.dtor ⟨p, c⟩ h = .ok () h' ∧
        (h'.block c = none → b.shared_counter_ = 0 ∧ b.weak_counter_ - 1 = 0) ∧
        (∀ d, d ≠ c → h'.block d = h.block d)) ∧
      (∀ p : Addr, ∃ h', WeakPtr.Reset ⟨p, c⟩ h = .ok ⟨0, 0⟩ h' ∧
        (h'.block c = none → b.shared_counter_ = 0 ∧ b.weak_counter_ - 1 = 0) ∧
        (∀ d, d ≠ c → h'.block d = h.block d)) ∧
      (∀ (p : Addr) (o : WeakPtr), ∃ h', WeakPtr.assignMove ⟨p, c⟩ o false h = .ok (o, ⟨0, 0⟩) h' ∧
        (h'.block c = none → b.shared_counter_ = 0 ∧ b.weak_counter_ - 1 = 0) ∧
        (∀ d, d ≠ c → h'.block d = h.block d))) ∧
    (b.shared_counter_ = 1 → 1 ≤ b.weak_counter_ - selfUnits h c b →
      ∀ p : Addr, ∃ h' b', SharedPtr.dtor ⟨p, c⟩ h = .ok () h' ∧ h'.block c = some b' ∧
        b'.shared_counter_ = 0) ∧
    (∀ a : Addr, b.shared_counter_ ≠ 0 → (h.objs a).weak_this_.ctrl_ = c →
      ∃ h' b', destroyPointee true a h = .ok () h' ∧ h'.block c = some b') := by
  obtain ⟨h1, e1, b1, _, _⟩ := DecreaseSharedCounter_spec hb hself
  have key : ∀ h' : Heap, h'.block c = releasedBlock h c b → h'.block c = none →
      (decreasedBlock h c b).shared_counter_ = 0 ∧ (decreasedBlock h c b).weak_counter_ = 0 := by
    intro h' e en
    rw [e] at en
    exact (releasedBlock_none_iff h c b).1 en
  have wkey : ∀ h' : Heap,
      h'.block c = (if b.shared_counter_ = 0 ∧ b.weak_counter_ - 1 = 0 then none
          else some { b with weak_counter_ := b.weak_counter_ - 1 }) →
      h'.block c = none → b.shared_counter_ = 0 ∧ b.weak_counter_ - 1 = 0 := by
    intro h' e en
    rw [e] at en
    by_cases hz : b.shared_counter_ = 0 ∧ b.weak_counter_ - 1 = 0
    · exact hz
    · simp [hz] at en
  refine ⟨⟨h1, _, e1, b1, ?_, ?_, ?_, ?_⟩, ⟨?_, ?_, ?_⟩, ?_, ?_⟩
  · intro p
    obtain ⟨h', e, bl, f, _⟩ := @SharedPtr.dtor_spec h ⟨p, c⟩ b hb hself
    exact ⟨h', e, key h' bl, f⟩
  · intro p
    obtain ⟨h', e, bl, f, _⟩ := @SharedPtr.Reset_spec h ⟨p, c⟩ b hb hself
    exact ⟨h', e, key h' bl, f⟩
  · intro p o hp
    obtain ⟨h', e, bl, f⟩ := @SharedPtr.assignMove_spec h ⟨p, c⟩ o b hp hb hself
    exact ⟨h', e, key h' bl, f⟩
  · intro p o bo hp hd hbo
    obtain ⟨h', e, bl, bo', f⟩ :=
      @SharedPtr.assignCopy_other_block h ⟨p, c⟩ o b bo hp hb hself hd hbo
    exact ⟨h', e, key h' bl, ⟨_, bo'⟩, f⟩
  · intro p
    obtain ⟨h', e, bl, f⟩ := WeakPtr.dtor_weak_spec (w := ⟨p, c⟩) hb hn
    exact ⟨h', e, wkey h' bl, f⟩
  · intro p
    obtain ⟨h', e, bl, f⟩ := WeakPtr.Reset_weak_spec (w := ⟨p, c⟩) hb hn
    exact ⟨h', e, wkey h' bl, f⟩
  · intro p o
    obtain ⟨h', e, bl, f⟩ := WeakPtr.assignMove_weak_spec (w := ⟨p, c⟩) o hb hn
    exact ⟨h', e, wkey h' bl, f⟩
  · intro hs hw p
    obtain ⟨h', e, bl, _, _⟩ := @SharedPtr.dtor_spec h ⟨p, c⟩ b hb hself
    obtain ⟨b', eb, es⟩ := releasedBlock_kept (h := h) (c := c) (le_of_eq hs.symm) hw
    exact ⟨h', b', e, by rw [bl]; exact eb, by rw [es, hs]; rfl⟩
  · intro a hs hw
    obtain ⟨h', e, bl, _⟩ := destroyPointee_keeps_block hb hs hw
    exact ⟨h', _, e, bl⟩

/-- C16 at a block with one shared and one weak unit: the destructor of the shared pointer
leaves the block allocated with shared counter 0. -/
theorem C16_deallocation_only_at_zero_witness :
    ∃ h' b', SharedPtr.dtor ⟨10, 1⟩ (Heap.single ⟨1, 1, Flavor.pointer, false, 10⟩) = .ok () h' ∧
      h'.block 1 = some b' ∧ b'.shared_counter_ = 0 :=
  (C16_deallocation_only_at_zero (Heap.single ⟨1, 1, Flavor.pointer, false, 10⟩) 1
    ⟨1, 1, Flavor.pointer, false, 10⟩ rfl (by intro e; cases e)
    (by intro _ _ e; cases e)).2.2.1 rfl (by decide) 10

/-- Agreement of the layouts under the const accessors and `Swap`. For all values `f`, `s`
(and `f'`, `s'` of a second pair): in the both-stored layout `GetFirst()` and `GetSecond()`
return what the pair was built from and `Swap` exchanges the two pairs. In each of the three
layouts with an elided element, whose type then has a single value, the accessors (in the
first-elided layout the const overload of `GetSecond`) return `f` and `s`, the pair stands
for the plain pair built from `(f, s)`, and the two pairs after `Swap` stand for the two
plain pairs after the plain `Swap`. -/
theorem CompressedPair.layouts_agree_const {F S : Type} [Inhabited F] [Inhabited S]
    (f f' : F) (s s' : S) :
    ((CompressedPair.ctor f s).GetFirst = f ∧ (CompressedPair.ctor f s).GetSecond = s ∧
      ((CompressedPair.ctor f s).Swap (CompressedPair.ctor f' s')).1 = CompressedPair.ctor f' s' ∧
      ((CompressedPair.ctor f s).Swap (CompressedPair.ctor f' s')).2 = CompressedPair.ctor f s) ∧
    ((∀ x y : F, x = y) →
      (CompressedPairFirstElided.ctor f s).GetFirst = f ∧
      (CompressedPairFirstElided.ctor f s).GetSecondConst = s ∧
      (CompressedPairFirstElided.ctor f s).toPlain = CompressedPair.ctor f s ∧
      (((CompressedPairFirstElided.ctor f s).Swap
          (CompressedPairFirstElided.ctor f' s')).1.toPlain,
        ((CompressedPairFirstElided.ctor f s).Swap
          (CompressedPairFirstElided.ctor f' s')).2.toPlain) =
        (CompressedPair.ctor f s).Swap (CompressedPair.ctor f' s')) ∧
    ((∀ x y : S, x = y) →
      (CompressedPairSecondElided.ctor f s).GetFirst = f ∧
      (CompressedPairSecondElided.ctor f s).GetSecond = s ∧
      (CompressedPairSecondElided.ctor f s).toPlain = CompressedPair.ctor f s ∧
      (((CompressedPairSecondElided.ctor f s).Swap
          (CompressedPairSecondElided.ctor f' s')).1.toPlain,
        ((CompressedPairSecondElided.ctor f s).Swap
          (CompressedPairSecondElided.ctor f' s')).2.toPlain) =
        (CompressedPair.ctor f s).Swap (CompressedPair.ctor f' s')) ∧
    ((∀ x y : F, x = y) → (∀ x y : S, x = y) →
      (CompressedPairBothElided.ctor f s).GetFirst = f ∧
      (CompressedPairBothElided.ctor f s).GetSecond = s ∧
      (CompressedPairBothElided.ctor f s).toPlain = CompressedPair.ctor f s ∧
      (((CompressedPairBothElided.ctor f s).Swap
          (CompressedPairBothElided.ctor f' s')).1.toPlain,
        ((CompressedPairBothElided.ctor f s).Swap
          (CompressedPairBothElided.ctor f' s')).2.toPlain) =
        (CompressedPair.ctor f s).Swap (CompressedPair.ctor f' s')) := by
  refine ⟨⟨rfl, rfl, rfl, rfl⟩, ?_, ?_, ?_⟩
  · intro hF
    obtain rfl : f = default := hF _ _
    obtain rfl : f' = default := hF _ _
    exact ⟨rfl, rfl, rfl, rfl⟩
  · intro hS
    obtain rfl : s = default := hS _ _
    obtain rfl : s' = default := hS _ _
    exact ⟨rfl, rfl, rfl, rfl⟩
  · intro hF hS
    obtain rfl : f = default := hF _ _
    obtain rfl : f' = default := hF _ _
    obtain rfl : s = default := hS _ _
    obtain rfl : s' = default := hS _ _
    exact ⟨rfl, rfl, rfl, rfl⟩

/-- With a stateless first element (`Unit`) and an `Int` second element the first-elided
pair returns, through the const accessors, the values it was built from and swaps like the
plain pair. -/
theorem CompressedPair.layouts_agree_const_example :
    (CompressedPairFirstElided.ctor () (5 : Int)).GetFirst = () ∧
    (CompressedPairFirstElided.ctor () (5 : Int)).GetSecondConst = 5 ∧
    ((CompressedPairFirstElided.ctor () (5 : Int)).Swap
      (CompressedPairFirstElided.ctor () (8 : Int))).1.toPlain = CompressedPair.ctor () 8 := by
  obtain ⟨e1, e2, _, e4⟩ :=
    (@CompressedPair.layouts_agree_const Unit Int _ _ () () 5 8).2.1 (fun _ _ => rfl)
  exact ⟨e1, e2, congrArg Prod.fst e4⟩

/-- C17, as the code behaves where it departs from the claim. For every pair built from
`(f, s)` in the first-elided layout, a call of the non-const `GetSecond()` has no value: the
overload is declared `S&& GetSecond() { return second_; }` and does not compile once it is
called. The both-stored pair built from the same values returns `s` from `GetSecond()`, and
so does the const overload of the first-elided layout. -/
theorem C17_first_elided_GetSecond_has_no_value {F S : Type} (f : F) (s : S) :
    (CompressedPairFirstElided.ctor f s).GetSecond = none ∧
    (CompressedPairFirstElided.ctor f s).GetSecond ≠ some (CompressedPair.ctor f s).GetSecond ∧
    (CompressedPair.ctor f s).GetSecond = s ∧
    (CompressedPairFirstElided.ctor f s).GetSecondConst = s := by
  refine ⟨rfl, ?_, rfl, rfl⟩
  intro e
  cases e

/-- C18, as the code behaves where it departs from the claim. For a type `T` with the
self-observation capability, the aliasing constructor with the null address calls
`SetWeakThis` through that null address: undefined behaviour, no pointer is returned. For
a type without the capability the same call returns a pointer with `Get()` null on the
block of `other`. -/
theorem C18_alias_null_address_with_capability_is_undefined :
    SharedPtr.ctorAlias true ⟨10, 1⟩ 0 (Heap.single ⟨1, 0, Flavor.pointer, false, 10⟩)
      = Outcome.ub ∧
    (SharedPtr.ctorAlias false ⟨10, 1⟩ 0 (Heap.single ⟨1, 0, Flavor.pointer, false, 10⟩)).val?
      = some ⟨0, 1⟩ := by
  constructor <;> rfl

/-- C19. For every `UniquePtr` `u`, of either form: `Release()` returns the held address;
afterwards `Get()` is null, the boolean conversion is false, and the deleter object and the
form are the ones `u` had. `Release` does not touch the log of deleter calls; the only call
made afterwards by the destructor is on the null address, so the released address is never
passed to the deleter. -/
theorem C19_release (u : UniquePtr) (log : List Invocation) :
    u.Release.1 = u.Get ∧
    u.Release.2.Get = 0 ∧
    u.Release.2.toBool = false ∧
    u.Release.2.GetDeleter = u.GetDeleter ∧
    u.Release.2.array = u.array ∧
    u.Release.2.dtor log =
      log ++ [⟨u.GetDeleter, u.array && decide (u.GetDeleter = Deleter.slug), 0, 0⟩] := by
  unfold UniquePtr.Release UniquePtr.dtor UniquePtr.DeletePointer UniquePtr.invokeDeleter
    UniquePtr.toBool
  unfold UniquePtr.GetDeleter UniquePtr.Get CompressedPair.GetFirst CompressedPair.GetSecond
  cases hA : u.array <;> by_cases hS : u.ptr_.second_ = Deleter.slug <;> simp [hS]

/-- Move construction from `src`, same-type or convertible-type, on a counted block. If
`src` has no control block, the new pointer takes its address and `src` is reset, on an
unchanged heap. If the block of `src` is allocated with a non-zero shared counter, the new
pointer has the address and control block `src` had, `src` is empty (`Get()` null,
`UseCount()` 0, null control block), the block is exactly as before (same shared counter),
no other block has changed, and no pointee record has changed: no destructor has run, also
when the counter was 1. A source on a block with shared counter 0 is not covered. -/
theorem SharedPtr.ctorMove_spec (src : SharedPtr) (h : Heap) :
    (src.ctrl_ = 0 →
      SharedPtr.ctorMove src h = .ok (⟨src.ptr_, 0⟩, ⟨0, 0⟩) h) ∧
    (∀ b, h.block src.ctrl_ = some b → b.shared_counter_ ≠ 0 →
      ∃ h', SharedPtr.ctorMove src h = .ok (⟨src.ptr_, src.ctrl_⟩, ⟨0, 0⟩) h' ∧
        SharedPtr.Get ⟨0, 0⟩ = 0 ∧ SharedPtr.UseCount ⟨0, 0⟩ h' = some 0 ∧
        h'.block src.ctrl_ = some b ∧
        (∀ d, d ≠ src.ctrl_ → h'.block d = h.block d) ∧
        h'.objs = h.objs ∧ h'.next = h.next) := by
  constructor
  · intro hc
    simp [SharedPtr.ctorMove, hc, SharedPtr.Reset, SharedPtr.DeleteControl]
  · intro b hb hs
    have hc := Heap.ne_zero_of_block hb
    have e1 := IncreaseSharedCounter_spec hb
    have b1 := Heap.block_setCtrl_same h hc
      (some { b with shared_counter_ := b.shared_counter_ + 1 })
    have hs1 : ({ b with shared_counter_ := b.shared_counter_ + 1 } : ControlBlock).shared_counter_
        ≠ 1 := by simpa using hs
    have e2 := DecreaseSharedCounter_more b1 hs1
    refine ⟨(h.setCtrl src.ctrl_ (some { b with shared_counter_ := b.shared_counter_ + 1 })).setCtrl
      src.ctrl_ (some { b with shared_counter_ := b.shared_counter_ + 1 - 1 }), ?_, rfl, rfl,
      ?_, ?_, rfl, rfl⟩
    · simp [SharedPtr.ctorMove, hc, e1, SharedPtr.Reset, SharedPtr.DeleteControl, e2,
        GetSharedCounter, GetWeakCounter, Heap.block_setCtrl_same _ hc, hs]
    · rw [Heap.block_setCtrl_same _ hc]
      simp
    · intro d hd
      rw [Heap.block_setCtrl_other _ hd, Heap.block_setCtrl_other _ hd]

/-- On a block with shared counter 1 the move returns, the source is empty and the block
still has shared counter 1. -/
theorem SharedPtr.ctorMove_spec_example :
    ∃ h', SharedPtr.ctorMove ⟨10, 1⟩ (Heap.single ⟨1, 0, Flavor.pointer, false, 10⟩) =
        .ok (⟨10, 1⟩, ⟨0, 0⟩) h' ∧
      h'.block 1 = some ⟨1, 0, Flavor.pointer, false, 10⟩ := by
  obtain ⟨h', e, _, _, bl, _⟩ :=
    (SharedPtr.ctorMove_spec ⟨10, 1⟩ (Heap.single ⟨1, 0, Flavor.pointer, false, 10⟩)).2
      ⟨1, 0, Flavor.pointer, false, 10⟩ rfl (by decide)
  exact ⟨h', e, bl⟩

/-- C20, as the code behaves where it departs from the claim. After
`auto a = MakeShared<T>(7); WeakPtr<T> w(a); SharedPtr<U> al(a, nullptr); SharedPtr<U> c(al);`
and the destructors of `a` and `al`, the copy `c` (not counted, its address being null) is
alive on block 1, whose shared counter is 0, and the pointee has been destroyed once. The
move construction `SharedPtr<U> d(std::move(c))` leaves `c` empty, gives `d` the address and
block of `c` and leaves the counter at 0, but it takes the counter to 1 and back to 0 on the
way, and the destructor of the pointee runs a second time during the move. -/
theorem C20_move_from_uncounted_copy_destroys_pointee :
    (Machine.init.run [Op.makeShared false 7, Op.wpFromShared 0, Op.spAlias false 0 0,
        Op.spCopy 1, Op.spDtor 0, Op.spDtor 1]).map
      (fun m => (m.sp 2, m.liveShared 1, GetSharedCounter 1 m.heap,
        (m.heap.objs (inlineAddr 1)).dtorCalls)) =
      some (some ⟨0, 1⟩, 1, some 0, 1) ∧
    (Machine.init.run [Op.makeShared false 7, Op.wpFromShared 0, Op.spAlias false 0 0,
        Op.spCopy 1, Op.spDtor 0, Op.spDtor 1, Op.spMove 2]).map
      (fun m => (m.sp 2, m.sp 3, GetSharedCounter 1 m.heap,
        (m.heap.objs (inlineAddr 1)).dtorCalls)) =
      some (some ⟨0, 0⟩, some ⟨0, 1⟩, some 0, 2) := by
  refine ⟨rfl, rfl⟩

/-! ## Further lemmas: `IntrusivePtr` counters, self handles, `Reset(T*)` -/

theorem RefCounted.DecRef_spec {a : Addr} {h : RcHeap} {n : Nat} (ha : a ≠ 0)
    (hc : h.count a = some n) (h1 : 1 ≤ n) (h2 : n < 2 ^ 64) :
    ∃ h', RefCounted.DecRef a h = some h' ∧
      h'.count a = (if n = 1 then none else some (n - 1)) ∧
      h'.destroyed a = h.destroyed a + (if n = 1 then 1 else 0) ∧
      (∀ x, x ≠ a → h'.count x = h.count x ∧ h'.destroyed x = h.destroyed x) := by
  have e : (n + (2 ^ 64 - 1)) % 2 ^ 64 = n - 1 := by omega
  by_cases hn : n = 1
  · subst hn
    refine ⟨⟨fun x => if x = a then none else h.count x,
      fun x => if x = a then h.destroyed x + 1 else h.destroyed x⟩, ?_, ?_, ?_, ?_⟩
    · simp [RefCounted.DecRef, RefCounted.RefCount, ha, hc]
    · simp
    · simp
    · intro x hx; simp [hx]
  · have hne : ¬ (n - 1 = 0) := by omega
    refine ⟨⟨fun x => if x = a then some (n - 1) else h.count x, h.destroyed⟩, ?_, ?_, ?_, ?_⟩
    · simp only [RefCounted.DecRef, RefCounted.RefCount, ha, hc, if_false, e, hne]
    · simp [hn]
    · simp [hn]
    · intro x hx; simp [hx]

theorem RefCounted.IncRef_spec {a : Addr} {h : RcHeap} {k : Nat} (ha : a ≠ 0)
    (hc : h.count a = some k) (h2 : k + 1 < 2 ^ 64) :
    ∃ h', RefCounted.IncRef a h = some h' ∧ h'.count a = some (k + 1) ∧
      h'.destroyed = h.destroyed ∧ (∀ x, x ≠ a → h'.count x = h.count x) := by
  have e : (k + 1) % 2 ^ 64 = k + 1 := Nat.mod_eq_of_lt h2
  refine ⟨⟨fun x => if x = a then some (k + 1) else h.count x, h.destroyed⟩, ?_, ?_, rfl, ?_⟩
  · simp only [RefCounted.IncRef, RefCounted.RefCount, ha, hc, if_false, e]
  · simp
  · intro x hx; simp [hx]

/-- What the pointee at `a` observes through a self handle on a block with one shared unit. -/
theorem selfHandle_observations {h : Heap} {a c : Addr} {b : ControlBlock}
    (hb : h.block c = some b) (hs : b.shared_counter_ = 1)
    (hw : (h.objs a).weak_this_ = ⟨a, c⟩) :
    (∃ h2, WeakFromThis a h = .ok ⟨a, c⟩ h2 ∧ WeakPtr.Expired ⟨a, c⟩ h2 = some false ∧
      WeakPtr.UseCount ⟨a, c⟩ h2 = some 1) ∧
    (∃ h3, SharedFromThis a h = .ok ⟨a, c⟩ h3 ∧ SharedPtr.UseCount ⟨a, c⟩ h3 = some 2) := by
  have hc := Heap.ne_zero_of_block hb
  have hb' := hb
  rw [Heap.block_of_ne_zero h hc] at hb'
  obtain ⟨s, k, fl, e, o⟩ := b
  simp only at hs
  subst hs
  constructor
  · simp [WeakFromThis, hw, WeakPtr.ctorCopy, hc, IncreaseWeakCounter, hb', WeakPtr.Expired,
      WeakPtr.UseCount, GetSharedCounter, Heap.block, Heap.setCtrl, toSizeT]
  · simp [SharedFromThis, hw, SharedPtr.ctorWeak, WeakPtr.Expired, hc, GetSharedCounter, hb',
      IncreaseSharedCounter, SharedPtr.UseCount, Heap.block, Heap.setCtrl, toSizeT]

theorem SharedPtr.ctorRaw_capability {h : Heap} {p : Addr} (hp : p ≠ 0)
    (hw : (h.objs p).weak_this_.ctrl_ ≠ 0 → ∃ bd, h.ctrl (h.objs p).weak_this_.ctrl_ = some bd)
    (hn : (h.objs p).weak_this_.ctrl_ ≤ h.next) :
    ∃ h', SharedPtr.ctorRaw true p h = .ok ⟨p, h.next + 1⟩ h' ∧
      (h'.objs p).weak_this_ = ⟨p, h.next + 1⟩ ∧
      h'.block (h.next + 1) = some ⟨1, 1, Flavor.pointer, true, p⟩ ∧
      h'.next = h.next + 1 := by
  have hne : (h.objs p).weak_this_.ctrl_ ≠ h.next + 1 := Nat.ne_of_lt (Nat.lt_succ_of_le hn)
  by_cases h0 : (h.objs p).weak_this_.ctrl_ = 0
  · simp [SharedPtr.ctorRaw, installWeakThis, WeakPtr.ctorShared, IncreaseWeakCounter,
      SetWeakThis, WeakPtr.assignCopy, WeakPtr.dtor, WeakPtr.dtorWith, DecreaseWeakCounter,
      GetSharedCounter, GetWeakCounter, Heap.alloc, Heap.block, Heap.setCtrl, Heap.setObj,
      hp, h0]
  · obtain ⟨bd, hbd⟩ := hw h0
    simp [SharedPtr.ctorRaw, installWeakThis, WeakPtr.ctorShared, IncreaseWeakCounter,
      SetWeakThis, WeakPtr.assignCopy, WeakPtr.dtor, WeakPtr.dtorWith, DecreaseWeakCounter,
      GetSharedCounter, GetWeakCounter, Heap.alloc, Heap.block, Heap.setCtrl, Heap.setObj,
      hp, h0, hne, hbd, Ne.symm hne]

theorem MakeShared_capability (v : Int) (h : Heap) :
    ∃ h', MakeShared true v h = .ok ⟨inlineAddr (h.next + 1), h.next + 1⟩ h' ∧
      h'.objs (inlineAddr (h.next + 1)) = ⟨v, 0, ⟨inlineAddr (h.next + 1), h.next + 1⟩⟩ ∧
      h'.block (h.next + 1) = some ⟨1, 1, Flavor.object, true, inlineAddr (h.next + 1)⟩ ∧
      h'.next = h.next + 1 := by
  simp [MakeShared, installWeakThis, WeakPtr.ctorShared, IncreaseWeakCounter,
      SetWeakThis, WeakPtr.assignCopy, WeakPtr.dtor, WeakPtr.dtorWith, DecreaseWeakCounter,
      GetSharedCounter, GetWeakCounter, Heap.alloc, Heap.block, Heap.setCtrl, Heap.setObj,
      inlineAddr]

/-- C21. Let `x` hold the address `cur` and let `p` be an address; a non-null `cur` is a live
pointee with counter `n`, `1 ≤ n < 2^64`, a non-null `p` is a live pointee with counter `k`,
`k + 1 < 2^64`. `Reset(p)` with `p == cur` returns with `x` and the memory unchanged. With
`p != cur` it returns with `Get() == p`; the counter of a non-null `cur` is `n - 1`, or the
pointee is destroyed (once) when `n` was 1; the counter of a non-null `p` is `k + 1`; every
other counter and destruction count is as before. `Reset()` returns with `x` empty
(`Get()` null, boolean conversion false, `UseCount() == 0`), the counter of a non-null `cur`
lowered as for `Reset(p)`, every other pointee as before, and nothing changed when `cur` was
null. -/
theorem C21_reset (x : IntrusivePtr) (p : Addr) (h : RcHeap) (n k : Nat)
    (hcur : x.ptr_ ≠ 0 → h.count x.ptr_ = some n ∧ 1 ≤ n ∧ n < 2 ^ 64)
    (hp : p ≠ 0 → h.count p = some k ∧ k + 1 < 2 ^ 64) :
    (p = x.ptr_ → x.ResetPtr p h = some (x, h)) ∧
    (p ≠ x.ptr_ → ∃ h', x.ResetPtr p h = some (⟨p⟩, h') ∧ IntrusivePtr.Get ⟨p⟩ = p ∧
      (x.ptr_ ≠ 0 → h'.count x.ptr_ = (if n = 1 then none else some (n - 1)) ∧
        h'.destroyed x.ptr_ = h.destroyed x.ptr_ + (if n = 1 then 1 else 0)) ∧
      (p ≠ 0 → h'.count p = some (k + 1) ∧ h'.destroyed p = h.destroyed p) ∧
      (∀ a, a ≠ x.ptr_ → a ≠ p → h'.count a = h.count a ∧ h'.destroyed a = h.destroyed a)) ∧
    (∃ x' h', x.Reset h = some (x', h') ∧ x'.Get = 0 ∧ x'.toBool = false ∧
      x'.UseCount h' = some 0 ∧
      (x.ptr_ = 0 → h' = h) ∧
      (x.ptr_ ≠ 0 → h'.count x.ptr_ = (if n = 1 then none else some (n - 1)) ∧
        h'.destroyed x.ptr_ = h.destroyed x.ptr_ + (if n = 1 then 1 else 0)) ∧
      (∀ a, a ≠ x.ptr_ → h'.count a = h.count a ∧ h'.destroyed a = h.destroyed a)) := by
  obtain ⟨cur⟩ := x
  simp only at hcur ⊢
  refine ⟨?_, ?_, ?_⟩
  · intro e
    simp [IntrusivePtr.ResetPtr, e]
  · intro hne
    by_cases hc0 : cur = 0
    · subst hc0
      have hp0 : p ≠ 0 := hne
      obtain ⟨hk, hk2⟩ := hp hp0
      obtain ⟨h', e, c, d, f⟩ := RefCounted.IncRef_spec hp0 hk hk2
      refine ⟨h', ?_, rfl, fun a => absurd rfl a, fun _ => ⟨c, by rw [d]⟩, ?_⟩
      · simp [IntrusivePtr.ResetPtr, hp0, e]
      · intro a _ ha; exact ⟨f a ha, by rw [d]⟩
    · obtain ⟨hn, hn1, hn2⟩ := hcur hc0
      obtain ⟨h1, e1, c1, d1, f1⟩ := RefCounted.DecRef_spec hc0 hn hn1 hn2
      by_cases hp0 : p = 0
      · subst hp0
        refine ⟨h1, ?_, rfl, fun _ => ⟨c1, d1⟩, fun a => absurd rfl a, ?_⟩
        · simp [IntrusivePtr.ResetPtr, hne, hc0, e1]
        · intro a ha _; exact f1 a ha
      · obtain ⟨hk, hk2⟩ := hp hp0
        have hk1 : h1.count p = some k := by rw [(f1 p hne).1, hk]
        obtain ⟨h2, e2, c2, d2, f2⟩ := RefCounted.IncRef_spec hp0 hk1 hk2
        refine ⟨h2, ?_, rfl, fun _ => ⟨?_, ?_⟩, fun _ => ⟨c2, ?_⟩, ?_⟩
        · simp [IntrusivePtr.ResetPtr, hne, hc0, e1, hp0, e2]
        · rw [f2 cur (Ne.symm hne), c1]
        · rw [d2, d1]
        · rw [d2, (f1 p hne).2]
        · intro a ha hap
          exact ⟨by rw [f2 a hap, (f1 a ha).1], by rw [d2, (f1 a ha).2]⟩
  · by_cases hc0 : cur = 0
    · subst hc0
      refine ⟨⟨0⟩, h, ?_, rfl, rfl, rfl, fun _ => rfl, fun a => absurd rfl a,
        fun a _ => ⟨rfl, rfl⟩⟩
      simp [IntrusivePtr.Reset]
    · obtain ⟨hn, hn1, hn2⟩ := hcur hc0
      obtain ⟨h1, e1, c1, d1, f1⟩ := RefCounted.DecRef_spec hc0 hn hn1 hn2
      refine ⟨⟨0⟩, h1, ?_, rfl, rfl, rfl, fun a => absurd a hc0, fun _ => ⟨c1, d1⟩, f1⟩
      simp [IntrusivePtr.Reset, hc0, e1]

/-- C21 on two pointees with counter 1 each, at `10` and `20`: `Reset(20)` on the pointer
holding `10` destroys the pointee at `10` and takes the counter at `20` to 2. -/
theorem C21_reset_witness :
    ∃ h', IntrusivePtr.ResetPtr ⟨10⟩ 20
        ⟨fun x => if x = 10 then some 1 else if x = 20 then some 1 else none, fun _ => 0⟩ =
        some (⟨20⟩, h') ∧
      h'.count 10 = none ∧ h'.destroyed 10 = 1 ∧ h'.count 20 = some 2 := by
  obtain ⟨h', e, _, c, d, _⟩ :=
    (C21_reset ⟨10⟩ 20
      ⟨fun x => if x = 10 then some 1 else if x = 20 then some 1 else none, fun _ => 0⟩ 1 1
      (fun _ => ⟨rfl, by decide, by decide⟩) (fun _ => ⟨rfl, by decide⟩)).2.1 (by decide)
  exact ⟨h', e, (c (by decide)).1, (c (by decide)).2, (d (by decide)).1⟩

/-- C22. Let `u` be a `UniquePtr<T[]>` with the default deleter `Slug` holding the non-null
start address of an array with the elements `xs`. `u[i]` is element `i` of `xs` for every
`i` below the length. The destructor makes one deleter call, the array form
`operator()(ptr, int)` (which is `delete[]`) on the held address, and no call of the
single-object form. `Reset(p)` makes one call, the array form on the held address, and
leaves `Get() == p` in the same array form with the same deleter. -/
theorem C22_array_form (u : UniquePtr) (xs : List Int) (mem : ArrayMem)
    (log : List Invocation) (p : Addr)
    (hu : u.array = true) (hd : u.GetDeleter = Deleter.slug) (ha : u.Get ≠ 0) :
    (∀ i, i < xs.length →
      ∃ v, xs.get? i = some v ∧ u.index i (mem.newArray u.Get xs) = some v) ∧
    u.dtor log = log ++ [⟨Deleter.slug, true, u.Get, u.Get⟩] ∧
    (u.Reset p log).2 = log ++ [⟨Deleter.slug, true, u.Get, p⟩] ∧
    (u.Reset p log).1.Get = p ∧ (u.Reset p log).1.array = true ∧
    (u.Reset p log).1.GetDeleter = Deleter.slug := by
  obtain ⟨⟨a, d⟩, arr⟩ := u
  simp only [UniquePtr.GetDeleter, UniquePtr.Get, CompressedPair.GetFirst,
    CompressedPair.GetSecond] at hu hd ha ⊢
  subst hu hd
  refine ⟨?_, ?_, ?_, ?_, ?_, ?_⟩
  · intro i hi
    refine ⟨xs.get ⟨i, hi⟩, List.get?_eq_get hi, ?_⟩
    have h1 : a ≤ a + i ∧ a + i < a + xs.length :=
      ⟨Nat.le_add_right _ _, Nat.add_lt_add_left hi a⟩
    simp only [UniquePtr.index, CompressedPair.GetFirst, ha, if_false, ArrayMem.newArray, h1,
      and_self, if_true, Nat.add_sub_cancel_left]
    exact List.get?_eq_get hi
  · simp [UniquePtr.dtor, UniquePtr.DeletePointer, UniquePtr.invokeDeleter, UniquePtr.Get,
      CompressedPair.GetFirst, CompressedPair.GetSecond]
  · simp [UniquePtr.Reset, UniquePtr.invokeDeleter, UniquePtr.Get,
      CompressedPair.GetFirst, CompressedPair.GetSecond, ha]
  · simp [UniquePtr.Reset, UniquePtr.Get, CompressedPair.GetFirst, ha]
  · simp [UniquePtr.Reset, UniquePtr.Get, CompressedPair.GetFirst, ha]
  · simp [UniquePtr.Reset, UniquePtr.Get, CompressedPair.GetFirst, CompressedPair.GetSecond, ha]

/-- C22 on an array of five elements at address `100`: index 4 returns the fifth element and
the destructor makes the one array-form call. -/
theorem C22_array_form_witness :
    (UniquePtr.ctor true 100 Deleter.slug).index 4
        (ArrayMem.newArray ⟨fun _ => none⟩ 100 [10, 11, 12, 13, 14]) = some 14 ∧
    (UniquePtr.ctor true 100 Deleter.slug).dtor [] = [⟨Deleter.slug, true, 100, 100⟩] := by
  obtain ⟨ix, dt, _⟩ := C22_array_form (UniquePtr.ctor true 100 Deleter.slug)
    [10, 11, 12, 13, 14] ⟨fun _ => none⟩ [] 0 rfl rfl (by decide)
  obtain ⟨v, e1, e2⟩ := ix 4 (by decide)
  cases e1
  exact ⟨e2, dt⟩

/-- C23. Let `T` have the self-observation capability. (1) Let `p` be non-null, the
previous self handle of the pointee at `p` empty or on an allocated block. `SharedPtr<T>(p)`
returns a pointer with the address `p` on a new block; afterwards the self handle of the
pointee holds `p` and the new block, the block has shared counter 1 and weak counter 1 (so
`UseCount()` is 1), `WeakFromThis()` returns a handle that is not expired, and
`SharedFromThis()` returns a pointer equal to the constructed one, with address `p`, and
`UseCount()` of both is then 2. (2) The same holds after `MakeShared<T>(v)`, for the object
built inline in the new block. -/
theorem C23_self_handle_installed (h : Heap) (p : Addr) (v : Int) (hp : p ≠ 0)
    (hw : (h.objs p).weak_this_.ctrl_ ≠ 0 → ∃ bd, h.ctrl (h.objs p).weak_this_.ctrl_ = some bd)
    (hn : (h.objs p).weak_this_.ctrl_ ≤ h.next) :
    (∃ h', SharedPtr.ctorRaw true p h = .ok ⟨p, h.next + 1⟩ h' ∧
      (h'.objs p).weak_this_ = ⟨p, h.next + 1⟩ ∧
      h'.block (h.next + 1) = some ⟨1, 1, Flavor.pointer, true, p⟩ ∧
      SharedPtr.UseCount ⟨p, h.next + 1⟩ h' = some 1 ∧
      (∃ w h2, WeakFromThis p h' = .ok w h2 ∧ w.Expired h2 = some false) ∧
      (∃ s h3, SharedFromThis p h' = .ok s h3 ∧ s.eq ⟨p, h.next + 1⟩ = true ∧
        s.Get = p ∧ s.UseCount h3 = some 2 ∧
        SharedPtr.UseCount ⟨p, h.next + 1⟩ h3 = some 2)) ∧
    (∃ h', MakeShared true v h = .ok ⟨inlineAddr (h.next + 1), h.next + 1⟩ h' ∧
      (h'.objs (inlineAddr (h.next + 1))).weak_this_ = ⟨inlineAddr (h.next + 1), h.next + 1⟩ ∧
      h'.block (h.next + 1) = some ⟨1, 1, Flavor.object, true, inlineAddr (h.next + 1)⟩ ∧
      SharedPtr.UseCount ⟨inlineAddr (h.next + 1), h.next + 1⟩ h' = some 1 ∧
      (∃ w h2, WeakFromThis (inlineAddr (h.next + 1)) h' = .ok w h2 ∧
        w.Expired h2 = some false) ∧
      (∃ s h3, SharedFromThis (inlineAddr (h.next + 1)) h' = .ok s h3 ∧
        s.eq ⟨inlineAddr (h.next + 1), h.next + 1⟩ = true ∧
        s.Get = inlineAddr (h.next + 1) ∧ s.UseCount h3 = some 2 ∧
        SharedPtr.UseCount ⟨inlineAddr (h.next + 1), h.next + 1⟩ h3 = some 2)) := by
  constructor
  · obtain ⟨h', e, w, bl, _⟩ := SharedPtr.ctorRaw_capability hp hw hn
    obtain ⟨⟨h2, e2, x2, _⟩, ⟨h3, e3, u3⟩⟩ := selfHandle_observations bl rfl w
    refine ⟨h', e, w, bl, ?_, ⟨_, h2, e2, x2⟩, ⟨_, h3, e3, ?_, rfl, u3, u3⟩⟩
    · simp [SharedPtr.UseCount, GetSharedCounter, bl, toSizeT]
    · simp [SharedPtr.eq]
  · obtain ⟨h', e, o, bl, _⟩ := MakeShared_capability v h
    have w : (h'.objs (inlineAddr (h.next + 1))).weak_this_ =
        ⟨inlineAddr (h.next + 1), h.next + 1⟩ := by rw [o]
    obtain ⟨⟨h2, e2, x2, _⟩, ⟨h3, e3, u3⟩⟩ := selfHandle_observations bl rfl w
    refine ⟨h', e, w, bl, ?_, ⟨_, h2, e2, x2⟩, ⟨_, h3, e3, ?_, rfl, u3, u3⟩⟩
    · simp [SharedPtr.UseCount, GetSharedCounter, bl, toSizeT]
    · simp [SharedPtr.eq]

/-- C23 for `SharedPtr<T>(new T(7))` on the empty heap, the object at address `10`: the
constructor returns, the self handle is `(10, block 1)` and block 1 has both counters 1. -/
theorem C23_self_handle_installed_witness :
    ∃ h', SharedPtr.ctorRaw true 10 (newObject 10 7 Heap.empty) = .ok ⟨10, 1⟩ h' ∧
      (h'.objs 10).weak_this_ = ⟨10, 1⟩ ∧
      h'.block 1 = some ⟨1, 1, Flavor.pointer, true, 10⟩ := by
  obtain ⟨h', e, w, bl, _⟩ :=
    (C23_self_handle_installed (newObject 10 7 Heap.empty) 10 7 (by decide)
      (fun x => absurd rfl x) (Nat.le_refl 0)).1
  exact ⟨h', e, w, bl⟩

/-- C24, as the code behaves where it departs from the claim. After
`SharedPtr<T> a(new T(7)); WeakPtr<T> w(a); a.Reset();`, for a type without the
self-observation capability, the block has shared counter 0 and weak counter 1 and the
destructor of the pointee has not run. Each of `~WeakPtr`, `w.Reset()` and the move
assignment `w = WeakPtr<T>()` then deletes the block, and the destructor of the block
destroys the pointee: the destructor count of the pointee goes from 0 to 1 during an
operation of `WeakPtr`. With `MakeShared<T>(7)` in place of the raw construction the
pointee was destroyed by `a.Reset()` and the same three operations leave the count at 1. -/
theorem C24_weak_release_destroys_pointee :
    (Machine.init.run [Op.newObject 10 7, Op.spRaw false 10, Op.wpFromShared 0,
        Op.spReset 0]).map
      (fun m => (m.wp 0, GetSharedCounter 1 m.heap, GetWeakCounter 1 m.heap,
        (m.heap.objs 10).dtorCalls)) = some (some ⟨10, 1⟩, some 0, some 1, 0) ∧
    (Machine.init.run [Op.newObject 10 7, Op.spRaw false 10, Op.wpFromShared 0,
        Op.spReset 0, Op.wpDtor 0]).map
      (fun m => ((m.heap.block 1).isSome, (m.heap.objs 10).dtorCalls)) = some (false, 1) ∧
    (Machine.init.run [Op.newObject 10 7, Op.spRaw false 10, Op.wpFromShared 0,
        Op.spReset 0, Op.wpReset 0]).map
      (fun m => ((m.heap.block 1).isSome, (m.heap.objs 10).dtorCalls)) = some (false, 1) ∧
    (Machine.init.run [Op.newObject 10 7, Op.spRaw false 10, Op.wpFromShared 0,
        Op.spReset 0, Op.wpDefault, Op.wpAssignMove 0 1]).map
      (fun m => ((m.heap.block 1).isSome, (m.heap.objs 10).dtorCalls)) = some (false, 1) ∧
    (WeakPtr.dtor ⟨10, 1⟩ (Heap.single ⟨0, 1, Flavor.pointer, false, 10⟩)).heap?.map
      (fun h => ((h.block 1).isSome, (h.objs 10).dtorCalls)) = some (false, 1) ∧
    (Machine.init.run [Op.makeShared false 7, Op.wpFromShared 0, Op.spReset 0]).map
      (fun m => (m.heap.objs (inlineAddr 1)).dtorCalls) = some 1 ∧
    (Machine.init.run [Op.makeShared false 7, Op.wpFromShared 0, Op.spReset 0,
        Op.wpDtor 0]).map
      (fun m => ((m.heap.block 1).isSome, (m.heap.objs (inlineAddr 1)).dtorCalls)) =
      some (false, 1) := by
  refine ⟨rfl, rfl, rfl, rfl, rfl, rfl, rfl⟩

/-- C25, an input on which the claim as stated fails: `F` is an empty class declared `final`,
`S` is a type with state, and the two are not related by inheritance. `F` carries no state,
but `is_compressed<F>` is false, the primary template is chosen and `first_` is stored. -/
theorem C25_final_empty_type_is_stored_counterexample :
    is_compressed ⟨true, true⟩ = false ∧
    Layout.ofTypes ⟨true, true⟩ ⟨false, false⟩ false false = Layout.bothStored ∧
    (Layout.ofTypes ⟨true, true⟩ ⟨false, false⟩ false false).elidesFirst = false ∧
    ¬ ((Layout.ofTypes ⟨true, true⟩ ⟨false, false⟩ false false).elidesFirst = true ↔
      (TypeTraits.is_empty ⟨true, true⟩ = true ∧ (false || false) = false)) := by
  decide

/-- C25, amended. For all element types `F` and `S`, described by `std::is_empty_v`,
`std::is_final_v` and the two values of `std::is_base_of_v`: `F` is a base class instead of
a field exactly when `F` is empty, not final, and neither type is a base of the other; the
same for `S`; whenever one is a base of the other the primary template (both stored) is
chosen, in particular for `F == S` a class type, where `std::is_base_of_v<F, F>` is true;
two types that are not empty are both stored whatever their relation. -/
theorem C25_layout_choice (F S : TypeTraits) (base_F_S base_S_F : Bool) :
    ((Layout.ofTypes F S base_F_S base_S_F).elidesFirst = true ↔
      F.is_empty = true ∧ F.is_final = false ∧ base_F_S = false ∧ base_S_F = false) ∧
    ((Layout.ofTypes F S base_F_S base_S_F).elidesSecond = true ↔
      S.is_empty = true ∧ S.is_final = false ∧ base_F_S = false ∧ base_S_F = false) ∧
    Layout.ofTypes F S true base_S_F = Layout.bothStored ∧
    Layout.ofTypes F S base_F_S true = Layout.bothStored ∧
    Layout.ofTypes F F true true = Layout.bothStored ∧
    Layout.ofTypes ⟨false, F.is_final⟩ ⟨false, S.is_final⟩ base_F_S base_S_F =
      Layout.bothStored := by
  obtain ⟨eF, fF⟩ := F
  obtain ⟨eS, fS⟩ := S
  cases eF <;> cases fF <;> cases eS <;> cases fS <;> cases base_F_S <;> cases base_S_F <;>
    decide

/-- C26. Let `u` hold the non-null address `p`, in either form and with any deleter.
`u.Reset(p)` makes one deleter call on `p` and leaves `u` as it was, so `Get()` is still
`p`; the destructor of `u` then makes a second call of the same deleter on `p`.
`IntrusivePtr::Reset(T*)` with the held address does nothing. -/
theorem C26_reset_to_held_address (u : UniquePtr) (log : List Invocation) (hp : u.Get ≠ 0) :
    (u.Reset u.Get log).1.Get = u.Get ∧
    (u.Reset u.Get log).1 = u ∧
    (u.Reset u.Get log).2 =
      log ++ [⟨u.GetDeleter, u.array && decide (u.GetDeleter = Deleter.slug), u.Get, u.Get⟩] ∧
    (u.Reset u.Get log).1.dtor (u.Reset u.Get log).2 =
      log ++ [⟨u.GetDeleter, u.array && decide (u.GetDeleter = Deleter.slug), u.Get, u.Get⟩,
        ⟨u.GetDeleter, u.array && decide (u.GetDeleter = Deleter.slug), u.Get, u.Get⟩] ∧
    (∀ (x : IntrusivePtr) (h : RcHeap), x.ResetPtr x.Get h = some (x, h)) := by
  obtain ⟨⟨a, d⟩, arr⟩ := u
  simp only [UniquePtr.GetDeleter, UniquePtr.Get, CompressedPair.GetFirst,
    CompressedPair.GetSecond] at hp ⊢
  refine ⟨?_, ?_, ?_, ?_, ?_⟩
  · simp [UniquePtr.Reset, UniquePtr.Get, CompressedPair.GetFirst, hp]
  · simp [UniquePtr.Reset, UniquePtr.Get, CompressedPair.GetFirst, hp]
  · cases arr <;> by_cases hS : d = Deleter.slug <;>
      simp [UniquePtr.Reset, UniquePtr.invokeDeleter, UniquePtr.Get,
        CompressedPair.GetFirst, CompressedPair.GetSecond, hp, hS]
  · cases arr <;> by_cases hS : d = Deleter.slug <;>
      simp [UniquePtr.Reset, UniquePtr.invokeDeleter, UniquePtr.Get, UniquePtr.dtor,
        UniquePtr.DeletePointer,
        CompressedPair.GetFirst, CompressedPair.GetSecond, hp, hS]
  · intro x h
    simp [IntrusivePtr.ResetPtr, IntrusivePtr.Get]

/-- C26 on a pointer holding `10` with a custom deleter: after `Reset(10)` and the
destructor the deleter has been called twice on `10`. -/
theorem C26_reset_to_held_address_witness :
    ((UniquePtr.ctor false 10 (Deleter.custom 3)).Reset 10 []).1.dtor
        ((UniquePtr.ctor false 10 (Deleter.custom 3)).Reset 10 []).2 =
      [⟨Deleter.custom 3, false, 10, 10⟩, ⟨Deleter.custom 3, false, 10, 10⟩] :=
  (C26_reset_to_held_address (UniquePtr.ctor false 10 (Deleter.custom 3)) [] (by decide)).2.2.2.1

end SmartPtrs
